import Mathlib

/-!
The handler-result conversion layer of go-mif.

A shallow embedding of `mif.go` and `options.go` (package `mif`). The three
conversion functions `Simple`, `Wrap` and `WrapJSON` are translated as
state-passing functions over

* a response writer (`ResponseWriter`), modelled after `http.ResponseWriter` as
  implemented by net/http and recorded by `httptest.ResponseRecorder`, the
  transport of the package tests: the first `WriteHeader` fixes the status code
  and panics on a code outside 100..999; `Write` commits status 200 when no
  status has been committed yet (the recorder then stores a detected
  Content-Type), refuses body bytes for a status that allows no body (1xx, 204,
  304), and appends to the body otherwise;
* the list of invocations of `m.logger.Error` (`LogArg`);
* an optional panic value.

The encoder `encoding/json` is not part of the package; `jsonMarshal` and
`jsonMarshalIndent` model it on a tree of Go values (`GoValue`). Go strings are
taken to be valid UTF-8, represented by `String`; `[]byte` is a list of bytes,
with `none` for the nil slice.
-/

namespace Mif

/-! ## Byte sequences, errors, headers -/

/-- Contents of a non-nil `[]byte`. -/
abbrev Bytes := List UInt8

/-- The conversion `[]byte(s)` of a (UTF-8) Go string. -/
def bytesOf (s : String) : Bytes := s.toList.flatMap String.utf8EncodeChar

/-- A Go `error` value: a leaf error with its text, or an error wrapped by
`fmt.Errorf(ctx + ": %w", err)`. -/
inductive GoError where
  | new (msg : String)
  | wrap (ctx : String) (err : GoError)
  deriving DecidableEq, Repr

/-- The method `Error()` of an error value. -/
def GoError.Error : GoError → String
  | .new msg => msg
  | .wrap ctx err => ctx ++ ": " ++ err.Error

/-- The type `http.Header`, `map[string][]string`, as a non-nil map. A nil map
is `none : Option Header`. -/
abbrev Header := AList (fun _ : String => List String)

/-- The method `Header.Get` for a key that is already in canonical MIME form (the
only key the package passes is `Content-Type`): the first value stored under
the key, or the empty string when the key is missing or has no values. -/
def Header.Get (h : Header) (key : String) : String :=
  match h.lookup key with
  | some (v :: _) => v
  | _ => ""

/-- The method `Header.Set` for a key in canonical MIME form: the key is bound to
the one-element list holding the value. -/
def Header.Set (h : Header) (key value : String) : Header :=
  h.insert key [value]

/-! ## Data model of `mif.go` -/

/-- A dynamic value held in `Data interface{}`. -/
inductive GoValue where
  | nil
  | bool (b : Bool)
  | int (n : Int)
  | str (s : String)
  | bytes (b : Option Bytes)
  | slice (xs : List GoValue)
  | struct (fields : List (String × GoValue))
  | chan

/-- The struct `JSONData` (mif.go 9-14). -/
structure JSONData where
  NotJSON : Bool
  Header : Option Header
  Status : Int
  Data : GoValue

/-- The struct `RawData` (mif.go 16-20). -/
structure RawData where
  Header : Option Header
  Status : Int
  Raw : Option Bytes

/-- The struct `UserError` (mif.go 105-107) as the value handed to the encoder:
one field, tagged `error_message`. -/
def UserError (Message : String) : GoValue :=
  .struct [("error_message", .str Message)]

def StatusOK : Int := 200

def StatusInternalServerError : Int := 500

/-- The struct `JSONConfig` (options.go 53-56). -/
structure JSONConfig where
  Prefix : String
  Indent : String
  deriving DecidableEq, Repr

/-- The interface `StdLogger` (options.go 27-29); a sink is identified by a number. -/
structure StdLogger where
  id : Nat
  deriving DecidableEq, Repr

/-- The implementations of the interface `Logger` (options.go 10-12): the
package's `noopLogger` and `stdLoggerWrapper`, or a caller-supplied sink. -/
inductive Logger where
  | noopLogger
  | stdLoggerWrapper (logger : StdLogger)
  | custom (id : Nat)
  deriving DecidableEq, Repr

/-- The struct `mif` (mif.go 32-36). -/
structure mif where
  logger : Logger
  json : JSONConfig
  disablePanic : Bool
  deriving DecidableEq, Repr

/-- The argument of one invocation of `m.logger.Error`: an error value or a
string. -/
inductive LogArg where
  | error (e : GoError)
  | text (s : String)
  deriving DecidableEq, Repr

/-- The request handed to a handler; the conversion layer never inspects it. -/
structure Request where
  Method : String
  URL : String
  deriving DecidableEq, Repr

/-! ## Response writer -/

/-- One operation performed on the response writer. -/
inductive Call where
  | SetHeader (key : String) (val : List String)
  | WriteHeader (code : Int)
  | Write (b : Option Bytes)
  deriving DecidableEq, Repr

/-- Result of running Go code that may panic. -/
inductive Res (α : Type) where
  | ok (a : α)
  | panic (msg : String)

/-- State of an `http.ResponseWriter`: header map, committed status code, body
written so far, the error every `Write` fails with (if the transport is
broken), the trace of operations performed, and, when the recorder has stored
a detected Content-Type, the bytes it was detected from: `sniffed = some b`
stands for the entry Content-Type: `http.DetectContentType(b)` of the header
map, which `HeaderMap` does not hold. -/
structure ResponseWriter where
  HeaderMap : Header
  Code : Int
  wroteHeader : Bool
  Body : Bytes
  writeErr : Option GoError
  calls : List Call
  sniffed : Option Bytes

/-- A fresh response, as `httptest.NewRecorder()` gives it: no header, no status
committed, no body, a working transport. -/
def ResponseWriter.fresh : ResponseWriter :=
  { HeaderMap := ∅, Code := 200, wroteHeader := false, Body := [],
    writeErr := none, calls := [], sniffed := none }

/-- The assignment `w.Header()[key] = val`; assigning Content-Type replaces a
detected one. -/
def ResponseWriter.setHeader (w : ResponseWriter) (key : String) (val : List String) :
    ResponseWriter :=
  { w with HeaderMap := w.HeaderMap.insert key val, calls := w.calls ++ [.SetHeader key val],
           sniffed := if key = "Content-Type" then none else w.sniffed }

/-- The method `WriteHeader`: once a status is committed the call does nothing;
otherwise `checkWriteHeaderCode` panics on a code that is not of three digits,
and a code that passes is committed. -/
def ResponseWriter.WriteHeader (w : ResponseWriter) (code : Int) : Res ResponseWriter :=
  if w.wroteHeader then
    .ok { w with calls := w.calls ++ [.WriteHeader code] }
  else if code < 100 ∨ code > 999 then
    .panic ("invalid WriteHeader code " ++ toString code)
  else
    .ok { w with Code := code, wroteHeader := true, calls := w.calls ++ [.WriteHeader code] }

/-- The function `bodyAllowedForStatus` of net/http: responses with status 1xx,
204 and 304 carry no body. -/
def bodyAllowedForStatus (status : Int) : Bool :=
  if 100 ≤ status ∧ status ≤ 199 then false
  else if status = 204 then false
  else if status = 304 then false
  else true

/-- The error `http.ErrBodyNotAllowed`. -/
def ErrBodyNotAllowed : GoError :=
  .new "http: request method or response status code does not allow body"

/-- The method `Write`. When no status has been committed it commits 200, and
the recorder stores a detected Content-Type unless the header map has a
Content-Type key or a non-empty Transfer-Encoding. On a broken transport the
transport error is returned. Otherwise a write of no bytes succeeds, bytes for a
status that allows no body are refused with `ErrBodyNotAllowed`, and any other
bytes are appended to the body. -/
def ResponseWriter.Write (w : ResponseWriter) (b : Option Bytes) :
    ResponseWriter × Option GoError :=
  let w1 : ResponseWriter :=
    if w.wroteHeader then w
    else
      { w with
        Code := StatusOK, wroteHeader := true,
        sniffed :=
          if (w.HeaderMap.lookup "Content-Type").isNone ∧ w.sniffed.isNone ∧
              Header.Get w.HeaderMap "Transfer-Encoding" = "" then some (b.getD [])
          else w.sniffed }
  let w2 : ResponseWriter := { w1 with calls := w1.calls ++ [.Write b] }
  match w2.writeErr with
  | some e => (w2, some e)
  | none =>
    if b.getD [] = [] then (w2, none)
    else if bodyAllowedForStatus w2.Code then ({ w2 with Body := w2.Body ++ b.getD [] }, none)
    else (w2, some ErrBodyNotAllowed)

/-! ## The JSON encoder (`encoding/json`) -/

def hexDigit (n : Nat) : Char := "0123456789abcdef".toList.getD n (Char.ofNat 48)

/-- Escaping of one character inside a JSON string, with HTML escaping on, as
`encoding/json` does since Go 1.22 (backspace and form feed have short forms). -/
def jsonEscapeChar (c : Char) : List Char :=
  if c = Char.ofNat 34 then [Char.ofNat 92, Char.ofNat 34]
  else if c = Char.ofNat 92 then [Char.ofNat 92, Char.ofNat 92]
  else if c = Char.ofNat 10 then [Char.ofNat 92, 'n']
  else if c = Char.ofNat 13 then [Char.ofNat 92, 'r']
  else if c = Char.ofNat 9 then [Char.ofNat 92, 't']
  else if c = Char.ofNat 8 then [Char.ofNat 92, 'b']
  else if c = Char.ofNat 12 then [Char.ofNat 92, 'f']
  else if c.toNat < 32 ∨ c = '<' ∨ c = '>' ∨ c = '&' then
    [Char.ofNat 92, 'u', '0', '0', hexDigit (c.toNat / 16), hexDigit (c.toNat % 16)]
  else if c.toNat = 8232 then [Char.ofNat 92, 'u', '2', '0', '2', '8']
  else if c.toNat = 8233 then [Char.ofNat 92, 'u', '2', '0', '2', '9']
  else [c]

/-- A JSON string literal. -/
def jsonString (s : String) : List Char :=
  Char.ofNat 34 :: s.toList.flatMap jsonEscapeChar ++ [Char.ofNat 34]

def b64Char (n : Nat) : Char :=
  "ABCDEFGHIJKLMNOPQRSTUVWXYZabcdefghijklmnopqrstuvwxyz0123456789+/".toList.getD n 'A'

/-- Standard base64 with padding, the encoding of a `[]byte` value in JSON. -/
def base64 : Bytes → List Char
  | a :: b :: c :: rest =>
    let n := a.toNat * 65536 + b.toNat * 256 + c.toNat
    b64Char (n / 262144) :: b64Char (n / 4096 % 64) :: b64Char (n / 64 % 64) ::
      b64Char (n % 64) :: base64 rest
  | [a, b] =>
    let n := a.toNat * 65536 + b.toNat * 256
    [b64Char (n / 262144), b64Char (n / 4096 % 64), b64Char (n / 64 % 64), '=']
  | [a] =>
    let n := a.toNat * 65536
    [b64Char (n / 262144), b64Char (n / 4096 % 64), '=', '=']
  | [] => []

mutual
/-- Compact JSON text of a value; channels are not encodable. -/
def jsonText : GoValue → Except GoError (List Char)
  | .nil => .ok "null".toList
  | .bool b => .ok (if b then "true".toList else "false".toList)
  | .int n => .ok (toString n).toList
  | .str s => .ok (jsonString s)
  | .bytes none => .ok "null".toList
  | .bytes (some b) => .ok (Char.ofNat 34 :: base64 b ++ [Char.ofNat 34])
  | .slice xs =>
    match jsonTextList xs with
    | .ok t => .ok ('[' :: t ++ [']'])
    | .error e => .error e
  | .struct fields =>
    match jsonTextFields fields with
    | .ok t => .ok (Char.ofNat 123 :: t ++ [Char.ofNat 125])
    | .error e => .error e
  | .chan => .error (.new "json: unsupported type: chan int")
/-- Comma-separated elements of an array. -/
def jsonTextList : List GoValue → Except GoError (List Char)
  | [] => .ok []
  | x :: xs =>
    match jsonText x, jsonTextList xs with
    | .ok a, .ok b => .ok (if xs.isEmpty then a else a ++ ',' :: b)
    | .error e, _ => .error e
    | _, .error e => .error e
/-- Comma-separated members of an object. -/
def jsonTextFields : List (String × GoValue) → Except GoError (List Char)
  | [] => .ok []
  | (k, x) :: xs =>
    match jsonText x, jsonTextFields xs with
    | .ok a, .ok b =>
      .ok (if xs.isEmpty then jsonString k ++ ':' :: a else jsonString k ++ ':' :: a ++ ',' :: b)
    | .error e, _ => .error e
    | _, .error e => .error e
end

/-- The function `json.Marshal`. -/
def jsonMarshal (v : GoValue) : Except GoError Bytes :=
  match jsonText v with
  | .ok t => .ok (bytesOf (String.mk t))
  | .error e => .error e

/-- State of `json.Indent` while it walks over compact JSON text. -/
structure IndentState where
  out : List Char
  inString : Bool
  escaped : Bool
  needIndent : Bool
  depth : Nat

/-- A line break followed by the line prefix and `depth` copies of the indent. -/
def indentNewline (pfx indent : String) (depth : Nat) : List Char :=
  Char.ofNat 10 :: pfx.toList ++ (List.replicate depth indent.toList).flatten

/-- One step of `json.Indent` on the character `c`. -/
def indentStep (pfx indent : String) (s : IndentState) (c : Char) : IndentState :=
  if s.inString then
    if s.escaped then { s with out := s.out ++ [c], escaped := false }
    else if c = Char.ofNat 92 then { s with out := s.out ++ [c], escaped := true }
    else if c = Char.ofNat 34 then { s with out := s.out ++ [c], inString := false }
    else { s with out := s.out ++ [c] }
  else if c = ' ' ∨ c = Char.ofNat 9 ∨ c = Char.ofNat 10 ∨ c = Char.ofNat 13 then s
  else
    let s1 : IndentState :=
      if s.needIndent ∧ c ≠ Char.ofNat 125 ∧ c ≠ ']' then
        { s with needIndent := false, depth := s.depth + 1,
                 out := s.out ++ indentNewline pfx indent (s.depth + 1) }
      else s
    if c = Char.ofNat 34 then { s1 with out := s1.out ++ [c], inString := true }
    else if c = Char.ofNat 123 ∨ c = '[' then { s1 with needIndent := true, out := s1.out ++ [c] }
    else if c = ',' then { s1 with out := s1.out ++ c :: indentNewline pfx indent s1.depth }
    else if c = ':' then { s1 with out := s1.out ++ [c, ' '] }
    else if c = Char.ofNat 125 ∨ c = ']' then
      if s1.needIndent then { s1 with needIndent := false, out := s1.out ++ [c] }
      else { s1 with depth := s1.depth - 1,
                     out := s1.out ++ indentNewline pfx indent (s1.depth - 1) ++ [c] }
    else { s1 with out := s1.out ++ [c] }

/-- The function `json.Indent` on compact JSON text. -/
def jsonIndent (t : List Char) (pfx indent : String) : List Char :=
  (t.foldl (indentStep pfx indent)
    { out := [], inString := false, escaped := false, needIndent := false, depth := 0 }).out

/-- The function `json.MarshalIndent`: `Marshal` followed by `Indent`. -/
def jsonMarshalIndent (v : GoValue) (pfx indent : String) : Except GoError Bytes :=
  match jsonText v with
  | .ok t => .ok (bytesOf (String.mk (jsonIndent t pfx indent)))
  | .error e => .error e

/-! ## Handlers and their outcomes -/

/-- What serving one request did: the response writer afterwards, the
invocations of `m.logger.Error` in order, and the panic value if the call
panicked. -/
structure Exec where
  w : ResponseWriter
  log : List LogArg
  panicked : Option String

/-- The type `http.HandlerFunc`. -/
abbrev HandlerFunc := ResponseWriter → Request → Exec

/-- The type `SimpleFunc` (mif.go 22): the handler works on the response writer
and returns an error or nil. -/
abbrev SimpleFunc := ResponseWriter → Request → ResponseWriter × Option GoError

/-- The type `WrapFunc` (mif.go 23): the handler returns `(*RawData, error)` or
panics; the second component lists the logger invocations made while it ran. -/
abbrev WrapFunc := Request → Res (Option RawData × Option GoError) × List LogArg

/-- The type `WrapJSONFunc` (mif.go 24), as `WrapFunc`. -/
abbrev WrapJSONFunc := Request → Res (Option JSONData × Option GoError) × List LogArg

/-! ## Options (`options.go`) and `New` -/

/-- The implementations of the interface `Option` (options.go 5-7). -/
inductive MifOption where
  | withLogger (logger : Logger)
  | withJSONConfig (json : JSONConfig)
  | setDisablePanic
  deriving DecidableEq, Repr

/-- The methods `apply` (options.go 18-20, 62-64, 73-75). -/
def MifOption.apply : MifOption → mif → mif
  | .withLogger logger, m => { m with logger := logger }
  | .withJSONConfig json, m => { m with json := json }
  | .setDisablePanic, m => { m with disablePanic := true }

def WithLogger (logger : Logger) : MifOption := .withLogger logger

def WithStdLogger (logger : StdLogger) : MifOption := .withLogger (.stdLoggerWrapper logger)

def WithNoopLogger : MifOption := .withLogger .noopLogger

def WithJSONConfig (cfg : JSONConfig) : MifOption := .withJSONConfig cfg

def SetDisablePanic : MifOption := .setDisablePanic

/-- The constructor `New` (mif.go 38-49). -/
def New (opts : List MifOption) : mif :=
  opts.foldl (fun m opt => opt.apply m)
    { logger := .noopLogger, json := { Prefix := "", Indent := "" }, disablePanic := false }

/-! ## The conversion functions (`mif.go`) -/

/-- The canned `RawData` of mif.go 71-74 and 80-83. -/
def serverErrorRaw : RawData :=
  { Header := none, Status := StatusInternalServerError, Raw := some (bytesOf "server error") }

/-- The canned `JSONData` of mif.go 115-118, 124-127 and 145-148. -/
def serverErrorJSON : JSONData :=
  { NotJSON := false, Header := none, Status := StatusInternalServerError,
    Data := UserError "server error" }

/-- The loop `for key, val := range data.Header` of mif.go 86-88; ranging over
a nil map does nothing. -/
def copyHeader (h : Option Header) (w : ResponseWriter) : ResponseWriter :=
  match h with
  | none => w
  | some h => h.entries.foldl (fun w e => w.setHeader e.1 e.2) w

/-- The method `Simple` (mif.go 51-63). -/
def mif.Simple (_m : mif) (next : SimpleFunc) : HandlerFunc := fun w r =>
  match next w r with
  | (w, some err) =>
    match w.WriteHeader StatusInternalServerError with
    | .panic msg => { w := w, log := [.error err], panicked := some msg }
    | .ok w =>
      let w := (w.Write (some (bytesOf "server error"))).1
      { w := w, log := [.error err], panicked := none }
  | (w, none) => { w := w, log := [], panicked := none }

/-- The method `Wrap` (mif.go 65-103). -/
def mif.Wrap (_m : mif) (next : WrapFunc) : HandlerFunc := fun w r =>
  match next r with
  | (.panic msg, lg) => { w := w, log := lg, panicked := some msg }
  | (.ok (data, err), lg) =>
    -- mif.go 68-75
    let step1 : Option RawData × List LogArg :=
      match err with
      | some e => (some serverErrorRaw, lg ++ [.error e])
      | none => (data, lg)
    -- mif.go 77-84
    let step2 : RawData × List LogArg :=
      match step1.1 with
      | none => (serverErrorRaw, step1.2 ++ [.text "data is nil"])
      | some d => (d, step1.2)
    let data := step2.1
    -- mif.go 86-88
    let w := copyHeader data.Header w
    -- mif.go 90-92
    let data : RawData := if data.Status = 0 then { data with Status := StatusOK } else data
    -- mif.go 94
    match w.WriteHeader data.Status with
    | .panic msg => { w := w, log := step2.2, panicked := some msg }
    | .ok w =>
      -- mif.go 95-99
      match w.Write data.Raw with
      | (w, some e) =>
        { w := w, log := step2.2 ++ [.error (.wrap "write response" e)], panicked := none }
      | (w, none) => { w := w, log := step2.2, panicked := none }

/-- The choice of encoder of mif.go 161-165: pretty-printing when the configured
prefix or indent is non-empty, compact encoding otherwise. -/
def mif.marshal (m : mif) (v : GoValue) : Except GoError Bytes :=
  if m.json.Prefix ≠ "" ∨ m.json.Indent ≠ "" then
    jsonMarshalIndent v m.json.Prefix m.json.Indent
  else jsonMarshal v

/-- The type switch of mif.go 132-149 distinguishes `[]byte` and `string` from
every other dynamic type (the nil interface included). -/
def GoValue.isBytesOrString : GoValue → Bool
  | .bytes _ => true
  | .str _ => true
  | _ => false

/-- The closure `fn` of the method `WrapJSON` (mif.go 110-177). -/
def mif.WrapJSON.fn (m : mif) (next : WrapJSONFunc) : WrapFunc := fun r =>
  match next r with
  | (.panic msg, lg) => (.panic msg, lg)
  | (.ok (data, err), lg) =>
    -- mif.go 112-119
    let step1 : Option JSONData × List LogArg :=
      match err with
      | some e => (some serverErrorJSON, lg ++ [.error e])
      | none => (data, lg)
    -- mif.go 121-128
    let step2 : JSONData × List LogArg :=
      match step1.1 with
      | none => (serverErrorJSON, step1.2 ++ [.text "data is nil"])
      | some d => (d, step1.2)
    -- mif.go 130-150
    let step3 : Res (Option Bytes × JSONData) × List LogArg :=
      if step2.1.NotJSON then
        match step2.1.Data with
        | .bytes v => (.ok (v, step2.1), step2.2)
        | .str v => (.ok (some (bytesOf v), step2.1), step2.2)
        | _ =>
          let msg := "bad \"not json\" data, expected \"[]byte\" or \"string\""
          if ¬ m.disablePanic then (.panic msg, step2.2)
          else (.ok (none, serverErrorJSON), step2.2 ++ [.text msg])
      else (.ok (none, step2.1), step2.2)
    match step3 with
    | (.panic msg, lg) => (.panic msg, lg)
    | (.ok (resp, data), lg) =>
      -- mif.go 152-170
      if ¬ data.NotJSON then
        let hdr : Header := match data.Header with
          | none => ∅
          | some h => h
        let hdr : Header :=
          if hdr.Get "Content-Type" = "" then hdr.Set "Content-Type" "application/json" else hdr
        let encoded : Except GoError Bytes := m.marshal data.Data
        match encoded with
        | .error e => (.ok (none, some (.wrap "json encode" e)), lg)
        | .ok b =>
          -- mif.go 172-176
          (.ok (some { Header := some hdr, Status := data.Status, Raw := some b }, none), lg)
      else
        -- mif.go 172-176
        (.ok (some { Header := data.Header, Status := data.Status, Raw := resp }, none), lg)

/-- The method `WrapJSON` (mif.go 109-180). -/
def mif.WrapJSON (m : mif) (next : WrapJSONFunc) : HandlerFunc :=
  m.Wrap (mif.WrapJSON.fn m next)

end Mif
namespace Mif

/-! ## The canned JSON error body -/

/-- The text of the JSON encoding of `UserError{"server error"}` under the
configuration of `m`: pretty-printed with the configured prefix and indent when
one of them is non-empty, compact otherwise. -/
def serverErrorText (m : mif) : String :=
  if m.json.Prefix ≠ "" ∨ m.json.Indent ≠ "" then
    "\x7b\n" ++ m.json.Prefix ++ m.json.Indent ++ "\"error_message\": \"server error\"\n" ++
      m.json.Prefix ++ "\x7d"
  else "\x7b\"error_message\":\"server error\"\x7d"

/-- What the logger is handed when the handler failed or returned nil: the
handler's error (mif.go 69, 113), or the string "data is nil" when there is
none (mif.go 78, 122). -/
def failureLog (err : Option GoError) : LogArg :=
  match err with
  | some e => .error e
  | none => .text "data is nil"

/-- The response headers of the canned JSON error response. -/
def jsonContentType : Header := AList.singleton "Content-Type" ["application/json"]

/-! ## What `Wrap` writes, and what becomes of the handler's object -/

/-- The value of the variable `data` at mif.go 86, after the substitutions of
mif.go 68-84: the canned result when the handler failed or returned nil, the
handler's result otherwise. -/
def resultToWrite (data : Option RawData) (err : Option GoError) : RawData :=
  match err, data with
  | some _, _ => serverErrorRaw
  | none, none => serverErrorRaw
  | none, some d => d

/-- The logger invocations of mif.go 68-84: one when the handler failed or
returned nil, none otherwise. -/
def failureLogs (data : Option RawData) (err : Option GoError) : List LogArg :=
  match err, data with
  | some e, _ => [.error e]
  | none, none => [.text "data is nil"]
  | none, some _ => []

/-- The status handed to `WriteHeader` (mif.go 90-94). -/
def statusToWrite (d : RawData) : Int := if d.Status = 0 then StatusOK else d.Status

/-- The steps of mif.go 94-99 on a writer whose headers have been assigned:
`WriteHeader(status)`, which may panic, then `Write(raw)`, whose error is logged
with the context "write response". -/
def commitAndWrite (w : ResponseWriter) (status : Int) (raw : Option Bytes)
    (lg : List LogArg) : Exec :=
  match w.WriteHeader status with
  | .panic msg => { w := w, log := lg, panicked := some msg }
  | .ok w2 =>
    match w2.Write raw with
    | (w3, some e) =>
      { w := w3, log := lg ++ [.error (.wrap "write response" e)], panicked := none }
    | (w3, none) => { w := w3, log := lg, panicked := none }

/-- A status code that `WriteHeader` accepts and for which `Write` takes body
bytes: three digits, and not 1xx, 204 or 304. -/
def servableStatus (status : Int) : Bool :=
  decide (100 ≤ status) && decide (status ≤ 999) && bodyAllowedForStatus status

/-- A result status that is served with its body: 0, which is sent as 200, or a
servable code. -/
def servable (status : Int) : Bool :=
  servableStatus (if status = 0 then StatusOK else status)

/-- The header assignments of the loop mif.go 86-88, in the order of the loop. -/
def headerCalls (h : Option Header) : List Call :=
  match h with
  | none => []
  | some h => h.entries.map fun e => Call.SetHeader e.1 e.2

/-- The `RawData` object the handler of `Wrap` returned, as it is after the
closure ran. When the handler returned an error the variable `data` is rebound
to a new object (mif.go 71) and the handler's object is left alone; otherwise
the closure works through the handler's pointer and the only assignment is
`data.Status = http.StatusOK` (mif.go 90-92). -/
def mif.Wrap.object (next : WrapFunc) (r : Request) : Option RawData :=
  match next r with
  | (.panic _, _) => none
  | (.ok (data, err), _) =>
    match err with
    | some _ => data
    | none =>
      match data with
      | none => none
      | some d => some (if d.Status = 0 then { d with Status := StatusOK } else d)

/-- The `JSONData` object the handler of `WrapJSON` returned, as it is after
the closure `fn` ran. When the handler returned an error the variable `data` is
rebound (mif.go 115). With `NotJSON` set the object is only read (mif.go
131-136), and for a bad payload the closure panics or rebinds `data` (mif.go
140-148). Otherwise the assignments are `data.Header = make(http.Header)` for a
nil map and `data.Header.Set("Content-Type", "application/json")` (mif.go
153-159), performed before the payload is encoded. -/
def mif.WrapJSON.object (next : WrapJSONFunc) (r : Request) : Option JSONData :=
  match next r with
  | (.panic _, _) => none
  | (.ok (data, err), _) =>
    match err with
    | some _ => data
    | none =>
      match data with
      | none => none
      | some d =>
        if d.NotJSON then some d
        else
          let hdr : Header := match d.Header with
            | none => ∅
            | some h => h
          let hdr : Header :=
            if hdr.Get "Content-Type" = "" then hdr.Set "Content-Type" "application/json" else hdr
          some { d with Header := some hdr }

/-! ## Reading a sequence of options -/

/-- The logger an option sets, if it is a logger option. -/
def MifOption.loggerOf : MifOption → Option Logger
  | .withLogger logger => some logger
  | _ => none

/-- The JSON configuration an option sets, if it is `WithJSONConfig`. -/
def MifOption.jsonOf : MifOption → Option JSONConfig
  | .withJSONConfig json => some json
  | _ => none

/-! ## Sample inputs -/

/-- The request of the package tests, `GET /`. -/
def sampleRequest : Request := { Method := "GET", URL := "/" }

/-- A handler in the style of the package tests: it returns the given pair and
neither logs nor panics. -/
def constWrap (data : Option RawData) (err : Option GoError) : WrapFunc :=
  fun _ => (.ok (data, err), [])

/-- As `constWrap`, for `WrapJSON`. -/
def constWrapJSON (data : Option JSONData) (err : Option GoError) : WrapJSONFunc :=
  fun _ => (.ok (data, err), [])

/-- The result `&JSONData{NotJSON: true, Data: 1234}` of the package tests. -/
def badNotJSON : JSONData := { NotJSON := true, Header := none, Status := 0, Data := .int 1234 }

/-- The configuration `New(SetDisablePanic(), WithJSONConfig(JSONConfig{Indent: "  "}))`. -/
def indentMif : mif := New [SetDisablePanic, WithJSONConfig { Prefix := "", Indent := "  " }]

/-- A JSON result whose header map binds Content-Type to one empty value,
`http.Header{"Content-Type": {""}}`. -/
def emptyContentType : JSONData :=
  { NotJSON := false, Header := some (AList.singleton "Content-Type" [""]), Status := 0,
    Data := .struct [("text", .str "test")] }

/-- A `Simple` handler that writes status 404 and the body "test simple", as the
handler of `TestMif_Simple_Ok`, and then returns the error "test error". -/
def writeThenFail : SimpleFunc := fun w _ =>
  match w.WriteHeader 404 with
  | .ok w => ((w.Write (some (bytesOf "test simple"))).1, some (.new "test error"))
  | .panic _ => (w, some (.new "test error"))

/-- The handler of `TestMif_Simple_Error`: it returns the error "test error"
without touching the response. -/
def failAtOnce : SimpleFunc := fun w _ => (w, some (.new "test error"))

/-- The handler of `TestMif_Simple_Ok`: it writes status 404 and the body
"test simple" and returns nil. -/
def writeOk : SimpleFunc := fun w _ =>
  match w.WriteHeader 404 with
  | .ok w => ((w.Write (some (bytesOf "test simple"))).1, none)
  | .panic _ => (w, none)

/-- The result `&JSONData{Data: jsonTest{Text: "test"}}` of the package tests. -/
def textJSON : JSONData :=
  { NotJSON := false, Header := none, Status := 0, Data := .struct [("text", .str "test")] }

/-- A JSON result whose payload, a channel, cannot be encoded. -/
def chanJSON : JSONData := { NotJSON := false, Header := none, Status := 0, Data := .chan }

/-- The configuration of `TestMif_WrapJSON_JSONConfig`. -/
def prefixMif : mif := New [WithJSONConfig { Prefix := "<prefix>", Indent := "<indent>" }]

/-- A response writer whose transport fails every write of body bytes. -/
def brokenWriter : ResponseWriter :=
  { ResponseWriter.fresh with writeErr := some (.new "broken pipe") }

/-- The result `&RawData{Raw: []byte("test raw")}` of the package tests. -/
def testRaw : RawData := { Header := none, Status := 0, Raw := some (bytesOf "test raw") }

/-- A raw result with the status 1000, which is not of three digits. -/
def status1000Raw : RawData :=
  { Header := none, Status := 1000, Raw := some (bytesOf "test raw") }

/-- A raw result with the status 204 (No Content) and a body. -/
def noContentRaw : RawData :=
  { Header := none, Status := 204, Raw := some (bytesOf "test raw") }

/-- The result `&JSONData{Status: 1000, Data: "x"}`. -/
def status1000JSON : JSONData :=
  { NotJSON := false, Header := none, Status := 1000, Data := .str "x" }

/-- The result `&JSONData{NotJSON: true, Status: 204, Data: "test non json"}`. -/
def noContentNotJSON : JSONData :=
  { NotJSON := true, Header := none, Status := 204, Data := .str "test non json" }

/-- The result `&JSONData{NotJSON: true, Status: 1000, Data: "test non json"}`. -/
def status1000NotJSON : JSONData :=
  { NotJSON := true, Header := none, Status := 1000, Data := .str "test non json" }

/-- The header map `http.Header{"Hello": {"World"}}` of the package tests. -/
def helloHeader : Header := AList.singleton "Hello" ["World"]

end Mif

namespace Mif

/-! ## Auxiliary facts about the header loop and the response writer -/

theorem foldl_setHeader_Code (l : List (Sigma fun _ : String => List String)) (w : ResponseWriter) :
    (l.foldl (fun w e => w.setHeader e.1 e.2) w).Code = w.Code ∧
    (l.foldl (fun w e => w.setHeader e.1 e.2) w).wroteHeader = w.wroteHeader ∧
    (l.foldl (fun w e => w.setHeader e.1 e.2) w).Body = w.Body ∧
    (l.foldl (fun w e => w.setHeader e.1 e.2) w).writeErr = w.writeErr := by
  induction l generalizing w with
  | nil => simp
  | cons e l ih =>
    simp only [List.foldl_cons]
    have := ih (w.setHeader e.1 e.2)
    simpa [ResponseWriter.setHeader] using this

theorem foldl_setHeader_lookup (l : List (Sigma fun _ : String => List String))
    (hl : l.NodupKeys) (w : ResponseWriter) (k : String) :
    (l.foldl (fun w e => w.setHeader e.1 e.2) w).HeaderMap.lookup k =
      match l.dlookup k with
      | some v => some v
      | none => w.HeaderMap.lookup k := by
  induction l generalizing w with
  | nil => simp
  | cons e l ih =>
    obtain ⟨a, v⟩ := e
    rw [List.nodupKeys_cons] at hl
    simp only [List.foldl_cons]
    rw [ih hl.2]
    by_cases hk : k = a
    · subst hk
      have : l.dlookup k = none := by
        rw [List.dlookup_eq_none]; exact hl.1
      simp [this, ResponseWriter.setHeader]
    · have hk2 : a ≠ k := fun h => hk h.symm
      rw [List.dlookup_cons_ne _ _ hk]
      cases hlk : l.dlookup k with
      | some v => simp
      | none => simp [ResponseWriter.setHeader, AList.lookup_insert_ne hk]

theorem foldl_setHeader_calls (l : List (Sigma fun _ : String => List String))
    (w : ResponseWriter) :
    (l.foldl (fun w e => w.setHeader e.1 e.2) w).calls =
      w.calls ++ l.map fun e => Call.SetHeader e.1 e.2 := by
  induction l generalizing w with
  | nil => simp
  | cons e l ih =>
    simp only [List.foldl_cons, List.map_cons]
    rw [ih]
    simp [ResponseWriter.setHeader]

theorem copyHeader_frame (h : Option Header) (w : ResponseWriter) :
    (copyHeader h w).Code = w.Code ∧ (copyHeader h w).wroteHeader = w.wroteHeader ∧
    (copyHeader h w).Body = w.Body ∧ (copyHeader h w).writeErr = w.writeErr := by
  cases h with
  | none => simp [copyHeader]
  | some h => exact foldl_setHeader_Code h.entries w

theorem copyHeader_lookup (h : Option Header) (w : ResponseWriter) (k : String) :
    (copyHeader h w).HeaderMap.lookup k =
      match (h.getD ∅).lookup k with
      | some v => some v
      | none => w.HeaderMap.lookup k := by
  cases h with
  | none => simp [copyHeader]
  | some h => exact foldl_setHeader_lookup h.entries h.nodupKeys w k

theorem copyHeader_none (w : ResponseWriter) : copyHeader none w = w := rfl

/-- The loop of mif.go 86-88 performs the header assignments and nothing else. -/
theorem copyHeader_calls (h : Option Header) (w : ResponseWriter) :
    (copyHeader h w).calls = w.calls ++ headerCalls h := by
  cases h with
  | none => simp [copyHeader, headerCalls]
  | some h => exact foldl_setHeader_calls h.entries w

/-- A servable status is of three digits and allows a body. -/
theorem servableStatus_iff (status : Int) :
    servableStatus status = true ↔
      (100 ≤ status ∧ status ≤ 999) ∧ bodyAllowedForStatus status = true := by
  simp [servableStatus, and_assoc]

theorem Write_frame (w : ResponseWriter) (b : Option Bytes) :
    (w.Write b).1.HeaderMap = w.HeaderMap ∧
    (w.Write b).1.calls = w.calls ++ [.Write b] ∧
    (w.Write b).1.writeErr = w.writeErr ∧
    (w.Write b).1.wroteHeader = true := by
  unfold ResponseWriter.Write
  cases he : w.writeErr <;> by_cases hw : w.wroteHeader = true <;> simp [hw, he] <;>
    (split_ifs <;> simp)

/-- `Write` on a writer with a committed status. -/
theorem Write_committed (w : ResponseWriter) (b : Option Bytes) (hw : w.wroteHeader = true) :
    (w.Write b).1.Code = w.Code ∧ (w.Write b).1.sniffed = w.sniffed ∧
    (w.writeErr = none → bodyAllowedForStatus w.Code = true →
      (w.Write b).1.Body = w.Body ++ b.getD [] ∧ (w.Write b).2 = none) ∧
    (∀ e, w.writeErr = some e → (w.Write b).1.Body = w.Body ∧ (w.Write b).2 = some e) ∧
    (w.writeErr = none → bodyAllowedForStatus w.Code = false → b.getD [] ≠ [] →
      (w.Write b).1.Body = w.Body ∧ (w.Write b).2 = some ErrBodyNotAllowed) := by
  unfold ResponseWriter.Write
  cases he : w.writeErr <;> simp [hw, he]
  split_ifs <;> simp_all

/-- When `WriteHeader` returns. -/
theorem WriteHeader_ok (w : ResponseWriter) (code : Int)
    (h : w.wroteHeader = true ∨ (100 ≤ code ∧ code ≤ 999)) :
    ∃ w2, w.WriteHeader code = .ok w2 ∧ w2.HeaderMap = w.HeaderMap ∧ w2.Body = w.Body ∧
      w2.writeErr = w.writeErr ∧ w2.wroteHeader = true ∧ w2.sniffed = w.sniffed ∧
      w2.calls = w.calls ++ [.WriteHeader code] ∧
      w2.Code = (if w.wroteHeader = true then w.Code else code) := by
  unfold ResponseWriter.WriteHeader
  by_cases hw : w.wroteHeader = true
  · exact ⟨{ w with calls := w.calls ++ [.WriteHeader code] }, by simp [hw], rfl, rfl, rfl, hw,
      rfl, rfl, by simp [hw]⟩
  · have hc : ¬ (code < 100 ∨ code > 999) := by
      rcases h with h | h
      · exact absurd h hw
      · omega
    exact ⟨{ w with Code := code, wroteHeader := true, calls := w.calls ++ [.WriteHeader code] },
      by simp [hw, hc], rfl, rfl, rfl, rfl, rfl, rfl, by simp [hw]⟩

/-- When `WriteHeader` panics. -/
theorem WriteHeader_panic (w : ResponseWriter) (code : Int)
    (hw : w.wroteHeader = false) (hc : code < 100 ∨ code > 999) :
    w.WriteHeader code = .panic ("invalid WriteHeader code " ++ toString code) := by
  simp [ResponseWriter.WriteHeader, hw, hc]

/-- The steps of mif.go 94-99 when `WriteHeader` returns. -/
theorem commitAndWrite_ok (w w2 : ResponseWriter) (status : Int) (raw : Option Bytes)
    (lg : List LogArg) (h : w.WriteHeader status = .ok w2) :
    commitAndWrite w status raw lg =
      { w := (w2.Write raw).1,
        log := lg ++ (match (w2.Write raw).2 with
          | some e => [LogArg.error (.wrap "write response" e)]
          | none => []),
        panicked := none } := by
  unfold commitAndWrite
  rw [h]
  cases hwr : w2.Write raw with
  | mk w3 e => cases e <;> simp [hwr]

/-- The steps of mif.go 94-99 when `WriteHeader` panics. -/
theorem commitAndWrite_panic (w : ResponseWriter) (status : Int) (raw : Option Bytes)
    (lg : List LogArg) (hw : w.wroteHeader = false) (hc : status < 100 ∨ status > 999) :
    commitAndWrite w status raw lg =
      { w := w, log := lg,
        panicked := some ("invalid WriteHeader code " ++ toString status) } := by
  unfold commitAndWrite
  rw [WriteHeader_panic w status hw hc]

/-- The header map is touched by neither `WriteHeader` nor `Write`. -/
theorem commitAndWrite_HeaderMap (w : ResponseWriter) (status : Int) (raw : Option Bytes)
    (lg : List LogArg) : (commitAndWrite w status raw lg).w.HeaderMap = w.HeaderMap := by
  by_cases h : w.wroteHeader = true ∨ (100 ≤ status ∧ status ≤ 999)
  · obtain ⟨w2, h2, hh, -⟩ := WriteHeader_ok w status h
    rw [commitAndWrite_ok w w2 status raw lg h2]
    show (w2.Write raw).1.HeaderMap = _
    rw [(Write_frame w2 raw).1, hh]
  · have hw : w.wroteHeader = false := by
      cases hwh : w.wroteHeader
      · rfl
      · exact absurd (Or.inl hwh) h
    have hc : status < 100 ∨ status > 999 := by
      by_contra hc
      exact h (Or.inr (by omega))
    rw [commitAndWrite_panic w status raw lg hw hc]

/-- The call panics exactly when no status is committed and the code is not of
three digits; the writer is then untouched. -/
theorem commitAndWrite_panicked (w : ResponseWriter) (status : Int) (raw : Option Bytes)
    (lg : List LogArg) :
    ((commitAndWrite w status raw lg).panicked ≠ none ↔
      (w.wroteHeader = false ∧ (status < 100 ∨ status > 999))) ∧
    ((commitAndWrite w status raw lg).panicked ≠ none →
      (commitAndWrite w status raw lg).w = w ∧ (commitAndWrite w status raw lg).log = lg) ∧
    ((commitAndWrite w status raw lg).panicked = none →
      (commitAndWrite w status raw lg).w.calls =
        w.calls ++ [.WriteHeader status, .Write raw]) := by
  by_cases h : w.wroteHeader = true ∨ (100 ≤ status ∧ status ≤ 999)
  · obtain ⟨w2, h2, -, -, -, -, -, hcalls, -⟩ := WriteHeader_ok w status h
    rw [commitAndWrite_ok w w2 status raw lg h2]
    refine ⟨⟨fun hp => absurd rfl hp, ?_⟩, fun hp => absurd rfl hp, fun _ => ?_⟩
    · rintro ⟨hw, hc⟩
      rcases h with h | h
      · rw [hw] at h; exact absurd h (by simp)
      · omega
    · show (w2.Write raw).1.calls = _
      rw [(Write_frame w2 raw).2.1, hcalls]
      simp
  · have hw : w.wroteHeader = false := by
      cases hwh : w.wroteHeader
      · rfl
      · exact absurd (Or.inl hwh) h
    have hc : status < 100 ∨ status > 999 := by
      by_contra hc
      exact h (Or.inr (by omega))
    rw [commitAndWrite_panic w status raw lg hw hc]
    exact ⟨⟨fun _ => ⟨hw, hc⟩, fun _ => by simp⟩, fun _ => ⟨rfl, rfl⟩,
      fun hp => absurd hp (by simp)⟩

/-- Committing a servable status and writing the body on a writer that has
committed nothing and whose transport works. -/
theorem commitAndWrite_servable (w : ResponseWriter) (status : Int) (raw : Option Bytes)
    (lg : List LogArg) (hw : w.wroteHeader = false) (he : w.writeErr = none)
    (hs : servableStatus status = true) :
    commitAndWrite w status raw lg =
      { w := { w with Code := status, wroteHeader := true, Body := w.Body ++ raw.getD [],
                      calls := w.calls ++ [.WriteHeader status, .Write raw] },
        log := lg, panicked := none } := by
  obtain ⟨⟨h1, h2⟩, h3⟩ := (servableStatus_iff status).mp hs
  have hc : ¬ (status < 100 ∨ status > 999) := by omega
  unfold commitAndWrite ResponseWriter.WriteHeader ResponseWriter.Write
  by_cases hb : raw.getD [] = [] <;> simp [hw, hc, he, hb, h3]

/-- The closure of `Wrap` for a handler that returned: the result to write is
chosen and the failure reason, if any, is logged; its headers are copied; its
status is committed and its body is written. -/
theorem Wrap_general (m : mif) (next : WrapFunc) (r : Request)
    (data : Option RawData) (err : Option GoError) (lg : List LogArg)
    (hnext : next r = (.ok (data, err), lg)) (w : ResponseWriter) :
    m.Wrap next w r =
      commitAndWrite (copyHeader (resultToWrite data err).Header w)
        (statusToWrite (resultToWrite data err)) (resultToWrite data err).Raw
        (lg ++ failureLogs data err) := by
  have hs : ¬ serverErrorRaw.Status = 0 := by decide
  simp only [mif.Wrap, hnext, commitAndWrite]
  cases err with
  | some e0 =>
    simp only [resultToWrite, failureLogs, statusToWrite, if_neg hs]
  | none =>
    cases data with
    | none => simp only [resultToWrite, failureLogs, statusToWrite, if_neg hs]
    | some d =>
      simp only [resultToWrite, failureLogs, statusToWrite, List.append_nil]
      by_cases h0 : d.Status = 0 <;> simp [h0]

/-- The closure of `Wrap` after the handler returned a result and no error. -/
theorem Wrap_returned (m : mif) (next : WrapFunc) (r : Request) (d : RawData)
    (lg : List LogArg) (hnext : next r = (.ok (some d, none), lg)) (w : ResponseWriter) :
    m.Wrap next w r = commitAndWrite (copyHeader d.Header w) (statusToWrite d) d.Raw lg := by
  rw [Wrap_general m next r (some d) none lg hnext w]
  simp [resultToWrite, failureLogs]

/-- The response headers after the closure of `Wrap` served a returned result,
whatever became of the status and the body. -/
theorem Wrap_returned_lookup (m : mif) (g : WrapFunc) (r : Request) (d : RawData)
    (lg : List LogArg) (hg : g r = (.ok (some d, none), lg)) (w : ResponseWriter) (k : String) :
    (m.Wrap g w r).w.HeaderMap.lookup k =
      match (d.Header.getD ∅).lookup k with
      | some v => some v
      | none => w.HeaderMap.lookup k := by
  rw [Wrap_returned m g r d lg hg w, commitAndWrite_HeaderMap, copyHeader_lookup]

/-- On a fresh response the headers are those of the returned result. -/
theorem Wrap_returned_lookup_fresh (m : mif) (g : WrapFunc) (r : Request) (d : RawData)
    (lg : List LogArg) (hg : g r = (.ok (some d, none), lg)) (k : String) :
    (m.Wrap g .fresh r).w.HeaderMap.lookup k = (d.Header.getD ∅).lookup k := by
  rw [Wrap_returned_lookup m g r d lg hg]
  cases (d.Header.getD ∅).lookup k <;> simp [ResponseWriter.fresh]

/-- Serving a returned result with a servable status on a fresh response:
status, body, headers, operations, log. -/
theorem Wrap_returned_fresh (m : mif) (g : WrapFunc) (r : Request) (d : RawData)
    (lg : List LogArg) (hg : g r = (.ok (some d, none), lg))
    (hs : servable d.Status = true) :
    (m.Wrap g .fresh r).w.Code = (if d.Status = 0 then 200 else d.Status) ∧
    (m.Wrap g .fresh r).w.Body = d.Raw.getD [] ∧
    (∀ k : String, (m.Wrap g .fresh r).w.HeaderMap.lookup k = (d.Header.getD ∅).lookup k) ∧
    (m.Wrap g .fresh r).log = lg ∧
    (m.Wrap g .fresh r).panicked = none ∧
    (m.Wrap g .fresh r).w.calls =
      headerCalls d.Header ++ [.WriteHeader (statusToWrite d), .Write d.Raw] := by
  have hf := copyHeader_frame d.Header .fresh
  have hc := copyHeader_calls d.Header .fresh
  refine ⟨?_, ?_, Wrap_returned_lookup_fresh m g r d lg hg, ?_, ?_, ?_⟩ <;>
    rw [Wrap_returned m g r d lg hg .fresh,
      commitAndWrite_servable (copyHeader d.Header .fresh) (statusToWrite d) d.Raw lg
        (by rw [hf.2.1]; rfl) (by rw [hf.2.2.2]; rfl) hs]
  · rfl
  · show (copyHeader d.Header .fresh).Body ++ d.Raw.getD [] = d.Raw.getD []
    rw [hf.2.2.1]
    rfl
  · show (copyHeader d.Header .fresh).calls ++ _ = _
    rw [hc]
    rfl

/-! ## Wrap -/

/-- C1: when the handler returns an error (with any result) or a nil result
without error, `Wrap` on a fresh response answers with status 500 and body
"server error", sets no header, and invokes the logger exactly once, with the
handler's error if there is one and with the string "data is nil" otherwise. -/
theorem Wrap_failure (m : mif) (next : WrapFunc) (r : Request)
    (data : Option RawData) (err : Option GoError)
    (hnext : next r = (.ok (data, err), []))
    (hfail : err ≠ none ∨ data = none) :
    (m.Wrap next .fresh r).w.Code = 500 ∧
    (m.Wrap next .fresh r).w.Body = bytesOf "server error" ∧
    (m.Wrap next .fresh r).w.HeaderMap = ∅ ∧
    (m.Wrap next .fresh r).w.calls =
      [.WriteHeader 500, .Write (some (bytesOf "server error"))] ∧
    (m.Wrap next .fresh r).log =
      [failureLog err] ∧
    (m.Wrap next .fresh r).panicked = none := by
  have hw : resultToWrite data err = serverErrorRaw := by
    cases err with
    | some e => rfl
    | none =>
      have hd : data = none := by simpa using hfail
      subst hd
      rfl
  have hl : failureLogs data err = [failureLog err] := by
    cases err with
    | some e => rfl
    | none =>
      have hd : data = none := by simpa using hfail
      subst hd
      rfl
  rw [Wrap_general m next r data err [] hnext .fresh, hw, hl,
    commitAndWrite_servable _ _ _ _ rfl rfl (by decide)]
  exact ⟨rfl, rfl, rfl, rfl, rfl, rfl⟩

theorem Wrap_failure_witness :
    (constWrap none (some (.new "test error")) sampleRequest
        = (.ok (none, some (.new "test error")), [])) ∧
    ((New []).Wrap (constWrap none (some (.new "test error"))) .fresh sampleRequest).w.Code = 500 ∧
    ((New []).Wrap (constWrap none (some (.new "test error"))) .fresh sampleRequest).log =
      [LogArg.error (.new "test error")] :=
  ⟨rfl,
   (Wrap_failure (New []) (constWrap none (some (.new "test error"))) sampleRequest none
      (some (.new "test error")) rfl (Or.inl (by simp))).1,
   (Wrap_failure (New []) (constWrap none (some (.new "test error"))) sampleRequest none
      (some (.new "test error")) rfl (Or.inl (by simp))).2.2.2.2.1⟩

/-- C2 (as amended): when the handler returns a present `RawData` and no error,
and the result's status is 0 or a code of three digits that allows a body (not
1xx, 204 or 304), `Wrap` on a fresh response commits status 200 if the result's
status is 0 and the result's status otherwise, the body is exactly the result's
bytes (empty for a nil slice), and the logger is not invoked. -/
theorem Wrap_success (m : mif) (next : WrapFunc) (r : Request) (d : RawData)
    (hnext : next r = (.ok (some d, none), []))
    (hs : servable d.Status = true) :
    (m.Wrap next .fresh r).w.Code = (if d.Status = 0 then 200 else d.Status) ∧
    (m.Wrap next .fresh r).w.Body = d.Raw.getD [] ∧
    (m.Wrap next .fresh r).log = [] ∧
    (m.Wrap next .fresh r).panicked = none := by
  have h := Wrap_returned_fresh m next r d [] hnext hs
  exact ⟨h.1, h.2.1, h.2.2.2.1, h.2.2.2.2.1⟩

theorem Wrap_success_witness :
    (constWrap (some { Header := none, Status := 0, Raw := some (bytesOf "test raw") }) none
        sampleRequest
      = (.ok (some { Header := none, Status := 0, Raw := some (bytesOf "test raw") }, none), [])) ∧
    ((New []).Wrap
        (constWrap (some { Header := none, Status := 0, Raw := some (bytesOf "test raw") }) none)
        .fresh sampleRequest).w.Code = 200 ∧
    ((New []).Wrap
        (constWrap (some { Header := none, Status := 0, Raw := some (bytesOf "test raw") }) none)
        .fresh sampleRequest).w.Body = bytesOf "test raw" :=
  ⟨rfl,
   (Wrap_success (New [])
      (constWrap (some { Header := none, Status := 0, Raw := some (bytesOf "test raw") }) none)
      sampleRequest _ rfl (by decide)).1,
   (Wrap_success (New [])
      (constWrap (some { Header := none, Status := 0, Raw := some (bytesOf "test raw") }) none)
      sampleRequest _ rfl (by decide)).2.1⟩

/-- C2 fails as stated. A handler returns a present result with status 1000 and
no error: `WriteHeader` panics, so no status 1000 is sent and the call does not
return. A handler returns a present result with status 204 and the body
"test raw": the body is refused, so the response body is empty, and the logger
receives the write error. -/
theorem Wrap_success_counterexample :
    (constWrap (some status1000Raw) none sampleRequest = (.ok (some status1000Raw, none), [])) ∧
    ((New []).Wrap (constWrap (some status1000Raw) none) .fresh sampleRequest).panicked =
      some "invalid WriteHeader code 1000" ∧
    ((New []).Wrap (constWrap (some status1000Raw) none) .fresh sampleRequest).w.Code ≠ 1000 ∧
    ((New []).Wrap (constWrap (some status1000Raw) none) .fresh sampleRequest).w.Body = [] ∧
    (constWrap (some noContentRaw) none sampleRequest = (.ok (some noContentRaw, none), [])) ∧
    ((New []).Wrap (constWrap (some noContentRaw) none) .fresh sampleRequest).w.Code = 204 ∧
    ((New []).Wrap (constWrap (some noContentRaw) none) .fresh sampleRequest).w.Body = [] ∧
    ((New []).Wrap (constWrap (some noContentRaw) none) .fresh sampleRequest).w.Body ≠
      noContentRaw.Raw.getD [] ∧
    ((New []).Wrap (constWrap (some noContentRaw) none) .fresh sampleRequest).log =
      [LogArg.error (.wrap "write response" ErrBodyNotAllowed)] := by
  refine ⟨rfl, ?_, ?_, ?_, rfl, ?_, ?_, ?_, ?_⟩
  · rfl
  · decide
  · rfl
  · rfl
  · rfl
  · decide
  · rfl

/-- C3: when the handler returns a `RawData`, then after `Wrap` every key of the
result's header map is bound in the response headers to exactly the result's
value list (replacing whatever the response held under that key), every other
key is as it was in the response before, and on a fresh response the response
headers are exactly the result's header map (empty for a nil map). -/
theorem Wrap_headers (m : mif) (next : WrapFunc) (r : Request) (d : RawData)
    (hnext : next r = (.ok (some d, none), [])) :
    (∀ (w : ResponseWriter) (k : String) (v : List String),
      (d.Header.getD ∅).lookup k = some v → (m.Wrap next w r).w.HeaderMap.lookup k = some v) ∧
    (∀ (w : ResponseWriter) (k : String),
      (d.Header.getD ∅).lookup k = none →
        (m.Wrap next w r).w.HeaderMap.lookup k = w.HeaderMap.lookup k) ∧
    (∀ k : String,
      (m.Wrap next .fresh r).w.HeaderMap.lookup k = (d.Header.getD ∅).lookup k) := by
  refine ⟨?_, ?_, Wrap_returned_lookup_fresh m next r d [] hnext⟩
  · intro w k v hk
    rw [Wrap_returned_lookup m next r d [] hnext, hk]
  · intro w k hk
    rw [Wrap_returned_lookup m next r d [] hnext, hk]

theorem Wrap_headers_witness :
    (constWrap (some { Header := some helloHeader, Status := 0, Raw := some (bytesOf "test raw") })
        none sampleRequest
      = (.ok (some { Header := some helloHeader, Status := 0, Raw := some (bytesOf "test raw") },
          none), [])) ∧
    (∀ k : String,
      ((New []).Wrap
        (constWrap (some { Header := some helloHeader, Status := 0,
                           Raw := some (bytesOf "test raw") }) none)
        .fresh sampleRequest).w.HeaderMap.lookup k = helloHeader.lookup k) :=
  ⟨rfl,
   (Wrap_headers (New [])
      (constWrap (some { Header := some helloHeader, Status := 0,
                         Raw := some (bytesOf "test raw") }) none)
      sampleRequest _ rfl).2.2⟩

/-! ## Auxiliary facts about the closure of WrapJSON -/

theorem jsonText_UserError :
    jsonText (UserError "server error") =
      .ok "\x7b\"error_message\":\"server error\"\x7d".toList := rfl

theorem jsonIndent_UserError (pfx indent : String) :
    jsonIndent "\x7b\"error_message\":\"server error\"\x7d".toList pfx indent =
      (Char.ofNat 123 :: Char.ofNat 10 :: pfx.toList ++ indent.toList ++
        "\"error_message\": \"server error\"".toList ++
        Char.ofNat 10 :: pfx.toList ++ [Char.ofNat 125]) := by
  simp [jsonIndent, indentStep, indentNewline]

/-- Encoding the canned error value never fails and yields `serverErrorText`. -/
theorem marshal_UserError (m : mif) :
    m.marshal (UserError "server error") = .ok (bytesOf (serverErrorText m)) := by
  unfold mif.marshal serverErrorText
  split
  · simp only [jsonMarshalIndent, jsonText_UserError, jsonIndent_UserError]
    congr 2
    apply String.ext
    simp
  · simp only [jsonMarshal, jsonText_UserError]
    rfl

/-- When the handler fails or returns nil, `fn` logs the reason and returns the
encoded canned error. -/
theorem fn_failure (m : mif) (next : WrapJSONFunc) (r : Request)
    (data : Option JSONData) (err : Option GoError) (lg : List LogArg)
    (hnext : next r = (.ok (data, err), lg)) (hfail : err ≠ none ∨ data = none) :
    mif.WrapJSON.fn m next r =
      (.ok (some { Header := some jsonContentType, Status := 500,
                   Raw := some (bytesOf (serverErrorText m)) }, none),
       lg ++ [failureLog err]) := by
  cases err with
  | some e =>
    simp [mif.WrapJSON.fn, hnext, serverErrorJSON, Header.Get, Header.Set, marshal_UserError,
      jsonContentType, StatusInternalServerError, failureLog]
  | none =>
    have hd : data = none := by simpa using hfail
    subst hd
    simp [mif.WrapJSON.fn, hnext, serverErrorJSON, Header.Get, Header.Set, marshal_UserError,
      jsonContentType, StatusInternalServerError, failureLog]

/-- With panics disabled, a result flagged `NotJSON` whose payload is neither
`[]byte` nor `string` makes `fn` log the fixed message and return the encoded
canned error. -/
theorem fn_bad_payload (m : mif) (next : WrapJSONFunc) (r : Request) (jd : JSONData)
    (lg : List LogArg) (hnext : next r = (.ok (some jd, none), lg))
    (hm : m.disablePanic = true) (hnj : jd.NotJSON = true)
    (hpay : jd.Data.isBytesOrString = false) :
    mif.WrapJSON.fn m next r =
      (.ok (some { Header := some jsonContentType, Status := 500,
                   Raw := some (bytesOf (serverErrorText m)) }, none),
       lg ++ [LogArg.text "bad \"not json\" data, expected \"[]byte\" or \"string\""]) := by
  cases hd : jd.Data <;> simp [hd, GoValue.isBytesOrString] at hpay <;>
    simp [mif.WrapJSON.fn, hnext, hm, hnj, hd, serverErrorJSON, Header.Get, Header.Set,
      marshal_UserError, jsonContentType, StatusInternalServerError]

/-- With panics enabled, the same result makes `fn` panic before anything is
logged. -/
theorem fn_panics (m : mif) (next : WrapJSONFunc) (r : Request) (jd : JSONData)
    (lg : List LogArg) (hnext : next r = (.ok (some jd, none), lg))
    (hm : m.disablePanic = false) (hnj : jd.NotJSON = true)
    (hpay : jd.Data.isBytesOrString = false) :
    mif.WrapJSON.fn m next r =
      (.panic "bad \"not json\" data, expected \"[]byte\" or \"string\"", lg) := by
  cases hd : jd.Data <;> simp [hd, GoValue.isBytesOrString] at hpay <;>
    simp [mif.WrapJSON.fn, hnext, hm, hnj, hd]

/-- A result flagged `NotJSON` with a `[]byte` or `string` payload is handed to
`Wrap` with the payload bytes as body and the headers and status untouched. -/
theorem fn_not_json (m : mif) (next : WrapJSONFunc) (r : Request) (jd : JSONData)
    (lg : List LogArg) (raw : Option Bytes) (hnext : next r = (.ok (some jd, none), lg))
    (hnj : jd.NotJSON = true)
    (hpay : jd.Data = .bytes raw ∨ ∃ s, jd.Data = .str s ∧ raw = some (bytesOf s)) :
    mif.WrapJSON.fn m next r =
      (.ok (some { Header := jd.Header, Status := jd.Status, Raw := raw }, none), lg) := by
  rcases hpay with hd | ⟨s, hd, hs⟩
  · simp [mif.WrapJSON.fn, hnext, hnj, hd]
  · simp [mif.WrapJSON.fn, hnext, hnj, hd, hs]

/-- The header map `fn` builds on the JSON path (mif.go 153-159). -/
theorem fn_json (m : mif) (next : WrapJSONFunc) (r : Request) (jd : JSONData)
    (lg : List LogArg) (b : Bytes) (hnext : next r = (.ok (some jd, none), lg))
    (hnj : jd.NotJSON = false) (henc : m.marshal jd.Data = .ok b) :
    mif.WrapJSON.fn m next r =
      (.ok (some { Header := some
                     (if Header.Get (jd.Header.getD ∅) "Content-Type" = "" then
                        Header.Set (jd.Header.getD ∅) "Content-Type" "application/json"
                      else jd.Header.getD ∅),
                   Status := jd.Status, Raw := some b }, none), lg) := by
  cases hh : jd.Header <;> simp [mif.WrapJSON.fn, hnext, hnj, henc, hh]

/-- When the handler returned, `fn` panics exactly on a bad `NotJSON` payload
with panics enabled. -/
theorem fn_returns (m : mif) (next : WrapJSONFunc) (r : Request)
    (data : Option JSONData) (err : Option GoError) (lg : List LogArg)
    (hnext : next r = (.ok (data, err), lg))
    (hno : ¬ (m.disablePanic = false ∧ err = none ∧
      ∃ jd, data = some jd ∧ jd.NotJSON = true ∧ jd.Data.isBytesOrString = false)) :
    ∃ v lg2, mif.WrapJSON.fn m next r = (.ok v, lg2) := by
  by_cases hfail : err ≠ none ∨ data = none
  · exact ⟨_, _, fn_failure m next r data err lg hnext hfail⟩
  · push_neg at hfail
    obtain ⟨he, hd⟩ := hfail
    subst he
    obtain ⟨jd, rfl⟩ := Option.ne_none_iff_exists'.mp hd
    by_cases hnj : jd.NotJSON = true
    · by_cases hpay : jd.Data.isBytesOrString = false
      · have hm : m.disablePanic = true := by
          cases hdp : m.disablePanic
          · exact absurd ⟨hdp, rfl, jd, rfl, hnj, hpay⟩ hno
          · rfl
        exact ⟨_, _, fn_bad_payload m next r jd lg hnext hm hnj hpay⟩
      · cases hd2 : jd.Data <;> simp [hd2, GoValue.isBytesOrString] at hpay
        · exact ⟨_, _, fn_not_json m next r jd lg (some (bytesOf _)) hnext hnj
            (Or.inr ⟨_, hd2, rfl⟩)⟩
        · exact ⟨_, _, fn_not_json m next r jd lg _ hnext hnj (Or.inl hd2)⟩
    · have hnj2 : jd.NotJSON = false := by simpa using hnj
      cases henc : m.marshal jd.Data with
      | ok b => exact ⟨_, _, fn_json m next r jd lg b hnext hnj2 henc⟩
      | error e =>
        refine ⟨(none, some (.wrap "json encode" e)), lg, ?_⟩
        simp [mif.WrapJSON.fn, hnext, hnj2, henc]

/-- When the payload cannot be encoded, `fn` returns no result and the encoding
error wrapped with the context "json encode" (mif.go 167-169). -/
theorem fn_encode_error (m : mif) (next : WrapJSONFunc) (r : Request) (jd : JSONData)
    (lg : List LogArg) (e : GoError) (hnext : next r = (.ok (some jd, none), lg))
    (hnj : jd.NotJSON = false) (henc : m.marshal jd.Data = .error e) :
    mif.WrapJSON.fn m next r = (.ok (none, some (.wrap "json encode" e)), lg) := by
  simp [mif.WrapJSON.fn, hnext, hnj, henc]

/-- A panicking handler makes `Wrap` panic with the response untouched. -/
theorem Wrap_of_panic (m : mif) (next : WrapFunc) (w : ResponseWriter) (r : Request)
    (msg : String) (lg : List LogArg) (hnext : next r = (.panic msg, lg)) :
    m.Wrap next w r = { w := w, log := lg, panicked := some msg } := by
  simp only [mif.Wrap, hnext]

/-- The status committed is out of range exactly when the result's status is
neither 0 nor of three digits. -/
theorem statusToWrite_invalid (d : RawData) :
    (statusToWrite d < 100 ∨ statusToWrite d > 999) ↔
      (d.Status ≠ 0 ∧ (d.Status < 100 ∨ d.Status > 999)) := by
  unfold statusToWrite StatusOK
  by_cases h0 : d.Status = 0
  · simp [h0]
  · simp [h0]

/-- For a handler that returned, the closure of `Wrap` panics exactly when no
status is committed yet and the status to commit is out of range; the headers
are then assigned, and nothing else is done to the writer. -/
theorem Wrap_panicked (m : mif) (g : WrapFunc) (r : Request)
    (data : Option RawData) (err : Option GoError) (lg : List LogArg)
    (hg : g r = (.ok (data, err), lg)) (w : ResponseWriter) :
    ((m.Wrap g w r).panicked ≠ none ↔
      (w.wroteHeader = false ∧
        (statusToWrite (resultToWrite data err) < 100 ∨
         statusToWrite (resultToWrite data err) > 999))) ∧
    ((m.Wrap g w r).panicked ≠ none →
      (m.Wrap g w r).w = copyHeader (resultToWrite data err).Header w ∧
      (m.Wrap g w r).log = lg ++ failureLogs data err) := by
  rw [Wrap_general m g r data err lg hg w]
  have h := commitAndWrite_panicked (copyHeader (resultToWrite data err).Header w)
    (statusToWrite (resultToWrite data err)) (resultToWrite data err).Raw
    (lg ++ failureLogs data err)
  rw [(copyHeader_frame (resultToWrite data err).Header w).2.1] at h
  exact ⟨h.1, h.2.1⟩

/-- Serving the encoded canned error on a fresh response. -/
theorem Wrap_canned_json (m : mif) (g : WrapFunc) (r : Request) (body : Bytes)
    (lg : List LogArg)
    (hg : g r = (.ok (some { Header := some jsonContentType, Status := 500,
                             Raw := some body }, none), lg)) :
    m.Wrap g .fresh r =
      { w := { HeaderMap := jsonContentType, Code := 500, wroteHeader := true, Body := body,
               writeErr := none,
               calls := [.SetHeader "Content-Type" ["application/json"], .WriteHeader 500,
                         .Write (some body)],
               sniffed := none },
        log := lg, panicked := none } := by
  have hs : servableStatus (statusToWrite
      ({ Header := some jsonContentType, Status := 500, Raw := some body } : RawData)) = true :=
    rfl
  rw [Wrap_returned m g r _ lg hg .fresh, commitAndWrite_servable _ _ _ _ rfl rfl hs]
  simp [copyHeader, jsonContentType, ResponseWriter.setHeader, ResponseWriter.fresh,
    AList.singleton, AList.insert, statusToWrite]

/-- Serving a failed handler on a fresh response. -/
theorem Wrap_failed_fresh (m : mif) (g : WrapFunc) (r : Request) (data : Option RawData)
    (e : GoError) (lg : List LogArg) (hg : g r = (.ok (data, some e), lg)) :
    m.Wrap g .fresh r =
      { w := { HeaderMap := ∅, Code := 500, wroteHeader := true,
               Body := bytesOf "server error", writeErr := none,
               calls := [.WriteHeader 500, .Write (some (bytesOf "server error"))],
               sniffed := none },
        log := lg ++ [.error e], panicked := none } := by
  rw [Wrap_general m g r data (some e) lg hg .fresh]
  exact commitAndWrite_servable _ _ _ _ rfl rfl rfl

/-! ## WrapJSON -/

/-- C4: when the handler returns an error (with any result) or a nil result
without error, then under every configuration `WrapJSON` on a fresh response
answers with status 500, exactly the header Content-Type: application/json, and
as body the JSON encoding of `UserError{"server error"}` produced by the
configured encoder (which does not fail); the logger is invoked exactly once,
with the handler's error or with the string "data is nil". -/
theorem WrapJSON_failure (m : mif) (next : WrapJSONFunc) (r : Request)
    (data : Option JSONData) (err : Option GoError)
    (hnext : next r = (.ok (data, err), []))
    (hfail : err ≠ none ∨ data = none) :
    (m.WrapJSON next .fresh r).w.Code = 500 ∧
    (m.WrapJSON next .fresh r).w.HeaderMap = AList.singleton "Content-Type" ["application/json"] ∧
    m.marshal (UserError "server error") = .ok (m.WrapJSON next .fresh r).w.Body ∧
    (m.WrapJSON next .fresh r).w.Body = bytesOf (serverErrorText m) ∧
    (m.WrapJSON next .fresh r).log =
      [failureLog err] ∧
    (m.WrapJSON next .fresh r).panicked = none := by
  have h := Wrap_canned_json m (mif.WrapJSON.fn m next) r _ _
    (fn_failure m next r data err [] hnext hfail)
  unfold mif.WrapJSON
  rw [h]
  exact ⟨rfl, rfl, marshal_UserError m, rfl, rfl, rfl⟩

theorem WrapJSON_failure_witness :
    (constWrapJSON none none sampleRequest = (.ok (none, none), [])) ∧
    ((New [SetDisablePanic]).WrapJSON (constWrapJSON none none) .fresh sampleRequest).w.Code = 500 ∧
    ((New [SetDisablePanic]).WrapJSON (constWrapJSON none none) .fresh sampleRequest).w.Body =
      bytesOf "\x7b\"error_message\":\"server error\"\x7d" ∧
    ((New [SetDisablePanic]).WrapJSON (constWrapJSON none none) .fresh sampleRequest).log =
      [LogArg.text "data is nil"] :=
  ⟨rfl,
   (WrapJSON_failure (New [SetDisablePanic]) (constWrapJSON none none) sampleRequest none none
      rfl (Or.inr rfl)).1,
   (WrapJSON_failure (New [SetDisablePanic]) (constWrapJSON none none) sampleRequest none none
      rfl (Or.inr rfl)).2.2.2.1,
   (WrapJSON_failure (New [SetDisablePanic]) (constWrapJSON none none) sampleRequest none none
      rfl (Or.inr rfl)).2.2.2.2.1⟩

/-- C5 (as amended): with panics disabled, a returned result flagged `NotJSON`
whose payload is neither `[]byte` nor `string` makes `WrapJSON` log exactly the
fixed bad-payload message and answer, on a fresh response, with the canned error
response: status 500, exactly the header Content-Type: application/json, and as
body the JSON encoding of `UserError{"server error"}` under the configured
prefix and indent, which is the compact text when both are empty; neither the
status nor the headers of the handler's result are sent. -/
theorem WrapJSON_bad_payload (m : mif) (next : WrapJSONFunc) (r : Request) (jd : JSONData)
    (hnext : next r = (.ok (some jd, none), []))
    (hm : m.disablePanic = true) (hnj : jd.NotJSON = true)
    (hpay : jd.Data.isBytesOrString = false) :
    (m.WrapJSON next .fresh r).log =
      [LogArg.text "bad \"not json\" data, expected \"[]byte\" or \"string\""] ∧
    (m.WrapJSON next .fresh r).w.Code = 500 ∧
    (m.WrapJSON next .fresh r).w.HeaderMap = AList.singleton "Content-Type" ["application/json"] ∧
    m.marshal (UserError "server error") = .ok (m.WrapJSON next .fresh r).w.Body ∧
    (m.json.Prefix = "" → m.json.Indent = "" →
      (m.WrapJSON next .fresh r).w.Body = bytesOf "\x7b\"error_message\":\"server error\"\x7d") ∧
    (m.WrapJSON next .fresh r).w.calls =
      [.SetHeader "Content-Type" ["application/json"], .WriteHeader 500,
       .Write (some (bytesOf (serverErrorText m)))] ∧
    (m.WrapJSON next .fresh r).panicked = none := by
  have h := Wrap_canned_json m (mif.WrapJSON.fn m next) r _ _
    (fn_bad_payload m next r jd [] hnext hm hnj hpay)
  unfold mif.WrapJSON
  rw [h]
  refine ⟨rfl, rfl, rfl, marshal_UserError m, ?_, rfl, rfl⟩
  intro hp hi
  simp [serverErrorText, hp, hi]

theorem WrapJSON_bad_payload_witness :
    (constWrapJSON (some badNotJSON) none sampleRequest = (.ok (some badNotJSON, none), [])) ∧
    ((New [SetDisablePanic]).WrapJSON (constWrapJSON (some badNotJSON) none)
        .fresh sampleRequest).log =
      [LogArg.text "bad \"not json\" data, expected \"[]byte\" or \"string\""] ∧
    ((New [SetDisablePanic]).WrapJSON (constWrapJSON (some badNotJSON) none)
        .fresh sampleRequest).w.Code = 500 :=
  ⟨rfl,
   (WrapJSON_bad_payload (New [SetDisablePanic]) (constWrapJSON (some badNotJSON) none)
      sampleRequest badNotJSON rfl rfl rfl rfl).1,
   (WrapJSON_bad_payload (New [SetDisablePanic]) (constWrapJSON (some badNotJSON) none)
      sampleRequest badNotJSON rfl rfl rfl rfl).2.1⟩

/-- C5 fails as stated: with panics disabled and a configured indent of two
spaces, the body of the canned error response is the pretty-printed encoding,
not the compact text. -/
theorem WrapJSON_bad_payload_counterexample :
    indentMif.disablePanic = true ∧ badNotJSON.NotJSON = true ∧
    badNotJSON.Data.isBytesOrString = false ∧
    (indentMif.WrapJSON (constWrapJSON (some badNotJSON) none) .fresh sampleRequest).w.Body =
      bytesOf "\x7b\n  \"error_message\": \"server error\"\n\x7d" ∧
    (indentMif.WrapJSON (constWrapJSON (some badNotJSON) none) .fresh sampleRequest).w.Body ≠
      bytesOf "\x7b\"error_message\":\"server error\"\x7d" := by
  have h := Wrap_canned_json indentMif
    (mif.WrapJSON.fn indentMif (constWrapJSON (some badNotJSON) none)) sampleRequest _ _
    (fn_bad_payload indentMif (constWrapJSON (some badNotJSON) none) sampleRequest badNotJSON []
      rfl rfl rfl rfl)
  unfold mif.WrapJSON
  rw [h]
  refine ⟨rfl, rfl, rfl, rfl, ?_⟩
  decide

/-- C6 (as amended): for a handler that returned, `WrapJSON` panics if and only
if either (a) panics are not disabled, the handler returned no error, and its
result is present, flagged `NotJSON`, with a payload that is neither `[]byte`
nor `string`, or (b) no status is committed on the response yet and the
handler's result is served (no error; a `[]byte` or `string` payload under
`NotJSON`, an encodable payload otherwise) with a status that is neither 0 nor
of three digits, which `WriteHeader` rejects. In case (a) the logger has not
been invoked and the response writer is untouched; in case (b) the logger has
not been invoked, the headers have been assigned, and no status and no body
byte has been written. -/
theorem WrapJSON_panic_iff (m : mif) (next : WrapJSONFunc) (w : ResponseWriter) (r : Request)
    (data : Option JSONData) (err : Option GoError)
    (hnext : next r = (.ok (data, err), [])) :
    ((m.WrapJSON next w r).panicked ≠ none ↔
      ((m.disablePanic = false ∧ err = none ∧
          ∃ jd, data = some jd ∧ jd.NotJSON = true ∧ jd.Data.isBytesOrString = false) ∨
       (w.wroteHeader = false ∧ err = none ∧
          ∃ jd, data = some jd ∧
            (jd.NotJSON = true → jd.Data.isBytesOrString = true) ∧
            (jd.NotJSON = false → ∃ b, m.marshal jd.Data = .ok b) ∧
            jd.Status ≠ 0 ∧ (jd.Status < 100 ∨ jd.Status > 999)))) ∧
    ((m.disablePanic = false ∧ err = none ∧
        ∃ jd, data = some jd ∧ jd.NotJSON = true ∧ jd.Data.isBytesOrString = false) →
      (m.WrapJSON next w r).log = [] ∧ (m.WrapJSON next w r).w = w ∧
      (m.WrapJSON next w r).w.calls = w.calls) ∧
    ((m.WrapJSON next w r).panicked ≠ none →
      (m.WrapJSON next w r).log = [] ∧
      (m.WrapJSON next w r).w.Code = w.Code ∧
      (m.WrapJSON next w r).w.wroteHeader = w.wroteHeader ∧
      (m.WrapJSON next w r).w.Body = w.Body ∧
      ∃ h, (m.WrapJSON next w r).w.calls = w.calls ++ headerCalls h) := by
  by_cases hA : m.disablePanic = false ∧ err = none ∧
      ∃ jd, data = some jd ∧ jd.NotJSON = true ∧ jd.Data.isBytesOrString = false
  · -- the panic of mif.go 140
    obtain ⟨hm, he, jd, hd, hnj, hpay⟩ := hA
    subst he hd
    have h := Wrap_of_panic m (mif.WrapJSON.fn m next) w r _ _
      (fn_panics m next r jd [] hnext hm hnj hpay)
    unfold mif.WrapJSON
    rw [h]
    refine ⟨⟨fun _ => Or.inl ⟨hm, rfl, jd, rfl, hnj, hpay⟩, fun _ => by simp⟩,
      fun _ => ⟨rfl, rfl, rfl⟩, fun _ => ⟨rfl, rfl, rfl, rfl, none, by simp [headerCalls]⟩⟩
  · -- `fn` returns; only `WriteHeader` may panic
    have hserve : ∀ (v : Option RawData × Option GoError) (lg2 : List LogArg),
        mif.WrapJSON.fn m next r = (.ok v, lg2) →
        ((m.WrapJSON next w r).panicked ≠ none ↔
          (w.wroteHeader = false ∧
            ((resultToWrite v.1 v.2).Status ≠ 0 ∧
              ((resultToWrite v.1 v.2).Status < 100 ∨ (resultToWrite v.1 v.2).Status > 999)))) ∧
        ((m.WrapJSON next w r).panicked ≠ none →
          (m.WrapJSON next w r).w = copyHeader (resultToWrite v.1 v.2).Header w ∧
          (m.WrapJSON next w r).log = lg2 ++ failureLogs v.1 v.2) := by
      intro v lg2 hfn
      have h := Wrap_panicked m (mif.WrapJSON.fn m next) r v.1 v.2 lg2 hfn w
      rw [statusToWrite_invalid] at h
      exact h
    -- what `fn` returns, case by case
    have hcases : ∃ (v : Option RawData × Option GoError) (lg2 : List LogArg),
        mif.WrapJSON.fn m next r = (.ok v, lg2) ∧
        (((resultToWrite v.1 v.2).Status ≠ 0 ∧
            ((resultToWrite v.1 v.2).Status < 100 ∨ (resultToWrite v.1 v.2).Status > 999)) ↔
          (err = none ∧ ∃ jd, data = some jd ∧
            (jd.NotJSON = true → jd.Data.isBytesOrString = true) ∧
            (jd.NotJSON = false → ∃ b, m.marshal jd.Data = .ok b) ∧
            jd.Status ≠ 0 ∧ (jd.Status < 100 ∨ jd.Status > 999))) ∧
        (((resultToWrite v.1 v.2).Status ≠ 0 ∧
            ((resultToWrite v.1 v.2).Status < 100 ∨ (resultToWrite v.1 v.2).Status > 999)) →
          lg2 ++ failureLogs v.1 v.2 = []) := by
      have h500 : ¬ ((500 : Int) ≠ 0 ∧ ((500 : Int) < 100 ∨ (500 : Int) > 999)) := by decide
      by_cases hfail : err ≠ none ∨ data = none
      · refine ⟨_, _, fn_failure m next r data err [] hnext hfail, ?_, ?_⟩
        · constructor
          · intro h
            exact absurd h h500
          · rintro ⟨he, jd, hd, -⟩
            rcases hfail with hf | hf
            · exact absurd he hf
            · rw [hd] at hf
              exact absurd hf (by simp)
        · intro h
          exact absurd h h500
      · push_neg at hfail
        obtain ⟨he, hd⟩ := hfail
        subst he
        obtain ⟨jd, rfl⟩ := Option.ne_none_iff_exists'.mp hd
        by_cases hnj : jd.NotJSON = true
        · by_cases hpay : jd.Data.isBytesOrString = false
          · have hm : m.disablePanic = true := by
              cases hdp : m.disablePanic
              · exact absurd ⟨hdp, rfl, jd, rfl, hnj, hpay⟩ hA
              · rfl
            refine ⟨_, _, fn_bad_payload m next r jd [] hnext hm hnj hpay, ?_, ?_⟩
            · constructor
              · intro h
                exact absurd h h500
              · rintro ⟨-, jd2, hd2, h1, -⟩
                have hj : jd = jd2 := by simpa using hd2
                subst hj
                rw [h1 hnj] at hpay
                exact absurd hpay (by simp)
            · intro h
              exact absurd h h500
          · have hpay2 : jd.Data.isBytesOrString = true := by simpa using hpay
            have hraw : ∃ raw, jd.Data = .bytes raw ∨
                ∃ s, jd.Data = .str s ∧ raw = some (bytesOf s) := by
              cases hd2 : jd.Data <;> simp [hd2, GoValue.isBytesOrString] at hpay2
              · exact ⟨_, Or.inr ⟨_, rfl, rfl⟩⟩
              · exact ⟨_, Or.inl rfl⟩
            obtain ⟨raw, hraw⟩ := hraw
            refine ⟨_, _, fn_not_json m next r jd [] raw hnext hnj hraw, ?_, ?_⟩
            · constructor
              · intro h
                exact ⟨rfl, jd, rfl, fun _ => hpay2,
                  fun h2 => by rw [hnj] at h2; exact absurd h2 (by simp), h.1, h.2⟩
              · rintro ⟨-, jd2, hd2, -, -, h3, h4⟩
                have hj : jd = jd2 := by simpa using hd2
                subst hj
                exact ⟨h3, h4⟩
            · intro _
              rfl
        · have hnj2 : jd.NotJSON = false := by simpa using hnj
          cases henc : m.marshal jd.Data with
          | ok b =>
            refine ⟨_, _, fn_json m next r jd [] b hnext hnj2 henc, ?_, ?_⟩
            · constructor
              · intro h
                exact ⟨rfl, jd, rfl, fun h2 => absurd h2 hnj, fun _ => ⟨b, henc⟩, h.1, h.2⟩
              · rintro ⟨-, jd2, hd2, -, -, h3, h4⟩
                have hj : jd = jd2 := by simpa using hd2
                subst hj
                exact ⟨h3, h4⟩
            · intro _
              rfl
          | error e =>
            refine ⟨_, _, fn_encode_error m next r jd [] e hnext hnj2 henc, ?_, ?_⟩
            · constructor
              · intro h
                exact absurd h h500
              · rintro ⟨-, jd2, hd2, -, h2, -⟩
                have hj : jd = jd2 := by simpa using hd2
                subst hj
                obtain ⟨b, hb⟩ := h2 hnj2
                rw [henc] at hb
                exact absurd hb (by simp)
            · intro h
              exact absurd h h500
    obtain ⟨v, lg2, hfn, hiff, hlog⟩ := hcases
    obtain ⟨hp1, hp2⟩ := hserve v lg2 hfn
    refine ⟨?_, fun h => absurd h hA, ?_⟩
    · rw [hp1, hiff]
      constructor
      · rintro ⟨hw, hB⟩
        exact Or.inr ⟨hw, hB⟩
      · rintro (h | ⟨hw, hB⟩)
        · exact absurd h hA
        · exact ⟨hw, hB⟩
    · intro hp
      obtain ⟨hw2, hl2⟩ := hp2 hp
      have hf := copyHeader_frame (resultToWrite v.1 v.2).Header w
      rw [hw2, hl2]
      exact ⟨hlog (hp1.mp hp).2, hf.1, hf.2.1, hf.2.2.1, _, copyHeader_calls _ w⟩

theorem WrapJSON_panic_iff_witness :
    (constWrapJSON (some badNotJSON) none sampleRequest = (.ok (some badNotJSON, none), [])) ∧
    ((New []).WrapJSON (constWrapJSON (some badNotJSON) none) .fresh sampleRequest).panicked
      ≠ none ∧
    ((New []).WrapJSON (constWrapJSON (some badNotJSON) none) .fresh sampleRequest).w
      = .fresh ∧
    ((New [SetDisablePanic]).WrapJSON (constWrapJSON (some badNotJSON) none)
      .fresh sampleRequest).panicked = none ∧
    ((New []).WrapJSON (constWrapJSON (some status1000JSON) none) .fresh sampleRequest).panicked
      ≠ none :=
  ⟨rfl,
   (WrapJSON_panic_iff (New []) (constWrapJSON (some badNotJSON) none) .fresh sampleRequest
      (some badNotJSON) none rfl).1.mpr (Or.inl ⟨rfl, rfl, badNotJSON, rfl, rfl, rfl⟩),
   ((WrapJSON_panic_iff (New []) (constWrapJSON (some badNotJSON) none) .fresh sampleRequest
      (some badNotJSON) none rfl).2.1 ⟨rfl, rfl, badNotJSON, rfl, rfl, rfl⟩).2.1,
   rfl,
   (WrapJSON_panic_iff (New []) (constWrapJSON (some status1000JSON) none) .fresh sampleRequest
      (some status1000JSON) none rfl).1.mpr
      (Or.inr ⟨rfl, rfl, status1000JSON, rfl, fun h => absurd h (by decide),
        fun _ => ⟨_, rfl⟩, by decide, Or.inr (by decide)⟩)⟩

/-- C6 fails as stated: a handler returns `JSONData` with status 1000 and the
payload "x", no error, `NotJSON` false. `WrapJSON` panics, in `WriteHeader`,
although the payload is acceptable; and by then the header Content-Type has
been assigned on the response. -/
theorem WrapJSON_panic_iff_counterexample :
    (constWrapJSON (some status1000JSON) none sampleRequest =
      (.ok (some status1000JSON, none), [])) ∧
    status1000JSON.NotJSON = false ∧
    ((New []).WrapJSON (constWrapJSON (some status1000JSON) none) .fresh sampleRequest).panicked =
      some "invalid WriteHeader code 1000" ∧
    ((New []).WrapJSON (constWrapJSON (some status1000JSON) none) .fresh sampleRequest).w.calls =
      [.SetHeader "Content-Type" ["application/json"]] ∧
    ((New []).WrapJSON (constWrapJSON (some status1000JSON) none)
      .fresh sampleRequest).w.HeaderMap.lookup "Content-Type" = some ["application/json"] := by
  refine ⟨rfl, rfl, rfl, rfl, ?_⟩
  decide

/-- C7 (as amended): a returned result flagged `NotJSON` whose payload is a
`[]byte` or a `string` is served exactly as `Wrap` serves the raw result made of
the handler's headers, the handler's status and the payload bytes, under every
configuration (so no encoder is involved), and on a fresh response the headers
are exactly the handler's (no Content-Type is added). When the status is 0 or a
code of three digits that allows a body, the body is exactly the payload bytes,
the status is the handler's (200 for 0), and the logger is not invoked. -/
theorem WrapJSON_not_json (m : mif) (next : WrapJSONFunc) (r : Request) (jd : JSONData)
    (raw : Option Bytes)
    (hnext : next r = (.ok (some jd, none), []))
    (hnj : jd.NotJSON = true)
    (hpay : jd.Data = .bytes raw ∨ ∃ s, jd.Data = .str s ∧ raw = some (bytesOf s)) :
    (∀ (m2 : mif) (w : ResponseWriter),
      m2.WrapJSON next w r =
        m.Wrap (constWrap (some { Header := jd.Header, Status := jd.Status, Raw := raw }) none)
          w r) ∧
    (∀ k : String,
      (m.WrapJSON next .fresh r).w.HeaderMap.lookup k = (jd.Header.getD ∅).lookup k) ∧
    (servable jd.Status = true →
      (m.WrapJSON next .fresh r).w.Body = raw.getD [] ∧
      (m.WrapJSON next .fresh r).w.Code = (if jd.Status = 0 then 200 else jd.Status) ∧
      (m.WrapJSON next .fresh r).log = [] ∧
      (m.WrapJSON next .fresh r).panicked = none) := by
  have hfn := fun m2 : mif => fn_not_json m2 next r jd [] raw hnext hnj hpay
  refine ⟨?_, Wrap_returned_lookup_fresh m (mif.WrapJSON.fn m next) r _ [] (hfn m), ?_⟩
  · intro m2 w
    unfold mif.WrapJSON
    rw [Wrap_returned m2 _ r _ [] (hfn m2) w,
      Wrap_returned m
        (constWrap (some { Header := jd.Header, Status := jd.Status, Raw := raw }) none)
        r _ [] rfl w]
  · intro hs
    have h := Wrap_returned_fresh m (mif.WrapJSON.fn m next) r _ [] (hfn m) hs
    exact ⟨h.2.1, h.1, h.2.2.2.1, h.2.2.2.2.1⟩

theorem WrapJSON_not_json_witness :
    (constWrapJSON
        (some { NotJSON := true, Header := none, Status := 0, Data := .str "test non json" }) none
        sampleRequest
      = (.ok (some { NotJSON := true, Header := none, Status := 0,
                     Data := .str "test non json" }, none), [])) ∧
    ((New [SetDisablePanic]).WrapJSON
        (constWrapJSON
          (some { NotJSON := true, Header := none, Status := 0, Data := .str "test non json" })
          none)
        .fresh sampleRequest).w.Body = bytesOf "test non json" ∧
    ((New [SetDisablePanic]).WrapJSON
        (constWrapJSON
          (some { NotJSON := true, Header := none, Status := 0, Data := .str "test non json" })
          none)
        .fresh sampleRequest).w.Code = 200 :=
  ⟨rfl,
   ((WrapJSON_not_json (New [SetDisablePanic])
      (constWrapJSON
        (some { NotJSON := true, Header := none, Status := 0, Data := .str "test non json" }) none)
      sampleRequest _ (some (bytesOf "test non json")) rfl rfl (Or.inr ⟨_, rfl, rfl⟩)).2.2
        (by decide)).1,
   ((WrapJSON_not_json (New [SetDisablePanic])
      (constWrapJSON
        (some { NotJSON := true, Header := none, Status := 0, Data := .str "test non json" }) none)
      sampleRequest _ (some (bytesOf "test non json")) rfl rfl (Or.inr ⟨_, rfl, rfl⟩)).2.2
        (by decide)).2.1⟩

/-- C7 fails as stated. With status 204 the payload bytes are refused: the body
is empty and the logger receives the write error. With status 1000 `WriteHeader`
panics and no status is sent. -/
theorem WrapJSON_not_json_counterexample :
    (constWrapJSON (some noContentNotJSON) none sampleRequest =
      (.ok (some noContentNotJSON, none), [])) ∧
    noContentNotJSON.NotJSON = true ∧ noContentNotJSON.Data = .str "test non json" ∧
    ((New []).WrapJSON (constWrapJSON (some noContentNotJSON) none) .fresh sampleRequest).w.Body
      = [] ∧
    ((New []).WrapJSON (constWrapJSON (some noContentNotJSON) none) .fresh sampleRequest).w.Body
      ≠ bytesOf "test non json" ∧
    ((New []).WrapJSON (constWrapJSON (some noContentNotJSON) none) .fresh sampleRequest).log =
      [LogArg.error (.wrap "write response" ErrBodyNotAllowed)] ∧
    (constWrapJSON (some status1000NotJSON) none sampleRequest =
      (.ok (some status1000NotJSON, none), [])) ∧
    status1000NotJSON.NotJSON = true ∧ status1000NotJSON.Data = .str "test non json" ∧
    ((New []).WrapJSON (constWrapJSON (some status1000NotJSON) none)
      .fresh sampleRequest).panicked = some "invalid WriteHeader code 1000" ∧
    ((New []).WrapJSON (constWrapJSON (some status1000NotJSON) none)
      .fresh sampleRequest).w.Code ≠ 1000 := by
  refine ⟨rfl, rfl, rfl, rfl, ?_, rfl, rfl, rfl, rfl, rfl, ?_⟩
  · decide
  · decide

/-- C8 (as amended): for a returned result with `NotJSON` false whose payload
encodes, on a fresh response Content-Type is exactly application/json when the
lookup `Get("Content-Type")` on the handler's headers yields the empty string
(the key is missing, in particular when the handler supplied no map, or its
first value is empty); when the lookup yields a non-empty string the handler's
Content-Type values are sent unchanged; every other header is the handler's;
and when the status is 0 or a code of three digits that allows a body, the body
is the encoded payload and the logger is not invoked. -/
theorem WrapJSON_content_type (m : mif) (next : WrapJSONFunc) (r : Request) (jd : JSONData)
    (b : Bytes)
    (hnext : next r = (.ok (some jd, none), []))
    (hnj : jd.NotJSON = false) (henc : m.marshal jd.Data = .ok b) :
    (Header.Get (jd.Header.getD ∅) "Content-Type" = "" →
      (m.WrapJSON next .fresh r).w.HeaderMap.lookup "Content-Type" =
        some ["application/json"]) ∧
    ((jd.Header.getD ∅).lookup "Content-Type" = none →
      (m.WrapJSON next .fresh r).w.HeaderMap.lookup "Content-Type" =
        some ["application/json"]) ∧
    (Header.Get (jd.Header.getD ∅) "Content-Type" ≠ "" →
      (m.WrapJSON next .fresh r).w.HeaderMap.lookup "Content-Type" =
        (jd.Header.getD ∅).lookup "Content-Type") ∧
    (∀ k : String, k ≠ "Content-Type" →
      (m.WrapJSON next .fresh r).w.HeaderMap.lookup k = (jd.Header.getD ∅).lookup k) ∧
    (servable jd.Status = true →
      (m.WrapJSON next .fresh r).w.Body = b ∧
      (m.WrapJSON next .fresh r).log = []) := by
  have hl := Wrap_returned_lookup_fresh m (mif.WrapJSON.fn m next) r _ []
    (fn_json m next r jd [] b hnext hnj henc)
  have hbody : servable jd.Status = true →
      (m.WrapJSON next .fresh r).w.Body = b ∧ (m.WrapJSON next .fresh r).log = [] := by
    intro hs
    have h := Wrap_returned_fresh m (mif.WrapJSON.fn m next) r _ []
      (fn_json m next r jd [] b hnext hnj henc) hs
    exact ⟨h.2.1, h.2.2.2.1⟩
  have hget : Header.Get (jd.Header.getD ∅) "Content-Type" = "" →
      (m.WrapJSON next .fresh r).w.HeaderMap.lookup "Content-Type" =
        some ["application/json"] := by
    intro hg
    unfold mif.WrapJSON
    rw [hl]
    simp [hg, Header.Set]
  refine ⟨hget, ?_, ?_, ?_, hbody⟩
  · intro hk
    apply hget
    simp [Header.Get, hk]
  · intro hg
    unfold mif.WrapJSON
    rw [hl]
    simp [hg]
  · intro k hk
    unfold mif.WrapJSON
    rw [hl]
    by_cases hg : Header.Get (jd.Header.getD ∅) "Content-Type" = ""
    · simp [hg, Header.Set, AList.lookup_insert_ne hk]
    · simp [hg]

theorem WrapJSON_content_type_witness :
    (constWrapJSON
        (some { NotJSON := false, Header := some helloHeader, Status := 0,
                Data := .struct [("text", .str "test")] }) none sampleRequest
      = (.ok (some { NotJSON := false, Header := some helloHeader, Status := 0,
                     Data := .struct [("text", .str "test")] }, none), [])) ∧
    ((New []).marshal (.struct [("text", .str "test")]) =
      .ok (bytesOf "\x7b\"text\":\"test\"\x7d")) ∧
    ((New []).WrapJSON
        (constWrapJSON
          (some { NotJSON := false, Header := some helloHeader, Status := 0,
                  Data := .struct [("text", .str "test")] }) none)
        .fresh sampleRequest).w.HeaderMap.lookup "Content-Type" = some ["application/json"] ∧
    ((New []).WrapJSON
        (constWrapJSON
          (some { NotJSON := false, Header := some helloHeader, Status := 0,
                  Data := .struct [("text", .str "test")] }) none)
        .fresh sampleRequest).w.Body = bytesOf "\x7b\"text\":\"test\"\x7d" :=
  ⟨rfl, rfl,
   (WrapJSON_content_type (New [])
      (constWrapJSON
        (some { NotJSON := false, Header := some helloHeader, Status := 0,
                Data := .struct [("text", .str "test")] }) none)
      sampleRequest _ (bytesOf "\x7b\"text\":\"test\"\x7d") rfl rfl rfl).2.1 (by decide),
   ((WrapJSON_content_type (New [])
      (constWrapJSON
        (some { NotJSON := false, Header := some helloHeader, Status := 0,
                Data := .struct [("text", .str "test")] }) none)
      sampleRequest _ (bytesOf "\x7b\"text\":\"test\"\x7d") rfl rfl rfl).2.2.2.2 (by decide)).1⟩

/-- C8 fails as stated: the handler's headers hold a Content-Type header (with
one empty value), its payload encodes, and yet the response does not carry the
handler's Content-Type unchanged: it carries application/json instead. -/
theorem WrapJSON_content_type_counterexample :
    emptyContentType.NotJSON = false ∧
    (New []).marshal emptyContentType.Data = .ok (bytesOf "\x7b\"text\":\"test\"\x7d") ∧
    (emptyContentType.Header.getD ∅).lookup "Content-Type" = some [""] ∧
    ((New []).WrapJSON (constWrapJSON (some emptyContentType) none) .fresh
      sampleRequest).w.HeaderMap.lookup "Content-Type" = some ["application/json"] ∧
    ((New []).WrapJSON (constWrapJSON (some emptyContentType) none) .fresh
      sampleRequest).w.HeaderMap.lookup "Content-Type" ≠
        (emptyContentType.Header.getD ∅).lookup "Content-Type" := by
  have h := Wrap_returned_lookup_fresh (New [])
    (mif.WrapJSON.fn (New []) (constWrapJSON (some emptyContentType) none)) sampleRequest _ []
    (fn_json (New []) (constWrapJSON (some emptyContentType) none) sampleRequest
      emptyContentType [] (bytesOf "\x7b\"text\":\"test\"\x7d") rfl rfl rfl)
  unfold mif.WrapJSON
  rw [h]
  refine ⟨rfl, rfl, by decide, by decide, by decide⟩

/-! ## Simple -/

/-- The closure of `Simple` after the handler returned an error: `WriteHeader`
returns, since 500 is of three digits, and the fixed text is written. -/
theorem Simple_failed (m : mif) (next : SimpleFunc) (w w1 : ResponseWriter) (r : Request)
    (e : GoError) (hnext : next w r = (w1, some e)) :
    ∃ w2, w1.WriteHeader 500 = .ok w2 ∧
      w2.HeaderMap = w1.HeaderMap ∧ w2.Body = w1.Body ∧ w2.writeErr = w1.writeErr ∧
      w2.wroteHeader = true ∧ w2.calls = w1.calls ++ [.WriteHeader 500] ∧
      w2.Code = (if w1.wroteHeader = true then w1.Code else 500) ∧
      m.Simple next w r =
        { w := (w2.Write (some (bytesOf "server error"))).1,
          log := [.error e], panicked := none } := by
  obtain ⟨w2, h2, hh, hb, he, hw, -, hc, hcode⟩ :=
    WriteHeader_ok w1 500 (Or.inr ⟨by decide, by decide⟩)
  refine ⟨w2, h2, hh, hb, he, hw, hc, hcode, ?_⟩
  have h3 : w1.WriteHeader StatusInternalServerError = .ok w2 := h2
  simp only [mif.Simple, hnext, h3]

/-- The fixed text is not empty. -/
theorem serverError_ne_nil : (some (bytesOf "server error")).getD [] ≠ [] := by decide

/-- C9: when the handler returns an error and has written nothing to the
response (no status committed, no body byte), on a working transport, `Simple`
answers with status 500 and the body "server error", leaves the headers as the
handler left them, and invokes the logger exactly once, with the handler's
error. -/
theorem Simple_failure (m : mif) (next : SimpleFunc) (w w1 : ResponseWriter) (r : Request)
    (e : GoError)
    (hnext : next w r = (w1, some e))
    (hwrote : w1.wroteHeader = false) (hbody : w1.Body = []) (htr : w1.writeErr = none) :
    (m.Simple next w r).w.Code = 500 ∧
    (m.Simple next w r).w.Body = bytesOf "server error" ∧
    (m.Simple next w r).w.HeaderMap = w1.HeaderMap ∧
    (m.Simple next w r).log = [LogArg.error e] ∧
    (m.Simple next w r).panicked = none := by
  obtain ⟨w2, -, hh, hb, he, hw, -, hcode, hS⟩ := Simple_failed m next w w1 r e hnext
  have hc2 : w2.Code = 500 := by rw [hcode, hwrote]; simp
  have hwc := Write_committed w2 (some (bytesOf "server error")) hw
  have hok := hwc.2.2.1 (by rw [he, htr]) (by rw [hc2]; decide)
  rw [hS]
  refine ⟨?_, ?_, ?_, rfl, rfl⟩
  · show (w2.Write (some (bytesOf "server error"))).1.Code = 500
    rw [hwc.1, hc2]
  · show (w2.Write (some (bytesOf "server error"))).1.Body = bytesOf "server error"
    rw [hok.1, hb, hbody]
    rfl
  · show (w2.Write (some (bytesOf "server error"))).1.HeaderMap = w1.HeaderMap
    rw [(Write_frame w2 _).1, hh]

theorem Simple_failure_witness :
    (failAtOnce .fresh sampleRequest = (.fresh, some (.new "test error"))) ∧
    ((New []).Simple failAtOnce .fresh sampleRequest).w.Code = 500 ∧
    ((New []).Simple failAtOnce .fresh sampleRequest).w.Body = bytesOf "server error" ∧
    ((New []).Simple failAtOnce .fresh sampleRequest).log = [LogArg.error (.new "test error")] :=
  ⟨rfl,
   (Simple_failure (New []) failAtOnce .fresh .fresh sampleRequest (.new "test error")
      rfl rfl rfl rfl).1,
   (Simple_failure (New []) failAtOnce .fresh .fresh sampleRequest (.new "test error")
      rfl rfl rfl rfl).2.1,
   (Simple_failure (New []) failAtOnce .fresh .fresh sampleRequest (.new "test error")
      rfl rfl rfl rfl).2.2.2.1⟩

/-- C10 (as amended): on handler failure `Simple` logs the error and then calls
`WriteHeader(500)` and `Write("server error")` whether or not the handler has
written to the response. When the handler has already committed a status (on a
working transport), that status and the headers stay as the handler left them
and the bytes "server error" are appended to the body the handler wrote (for a
committed status of 1xx, 204 or 304 the transport refuses them and the body
stays as it was); status 500 is therefore observed only when the handler had
committed none. -/
theorem Simple_failure_always_writes (m : mif) (next : SimpleFunc) (w w1 : ResponseWriter)
    (r : Request) (e : GoError)
    (hnext : next w r = (w1, some e)) :
    (∃ w2, w1.WriteHeader 500 = .ok w2 ∧
      (m.Simple next w r).w = (w2.Write (some (bytesOf "server error"))).1) ∧
    (m.Simple next w r).log = [LogArg.error e] ∧
    (m.Simple next w r).panicked = none ∧
    (m.Simple next w r).w.calls =
      w1.calls ++ [.WriteHeader 500, .Write (some (bytesOf "server error"))] ∧
    (w1.wroteHeader = true → w1.writeErr = none →
      (m.Simple next w r).w.Code = w1.Code ∧
      (m.Simple next w r).w.HeaderMap = w1.HeaderMap ∧
      (m.Simple next w r).w.Body =
        (if bodyAllowedForStatus w1.Code = true then w1.Body ++ bytesOf "server error"
         else w1.Body)) := by
  obtain ⟨w2, h2, hh, hb, he, hw, hc, hcode, hS⟩ := Simple_failed m next w w1 r e hnext
  have hwc := Write_committed w2 (some (bytesOf "server error")) hw
  rw [hS]
  refine ⟨⟨w2, h2, rfl⟩, rfl, rfl, ?_, ?_⟩
  · show (w2.Write (some (bytesOf "server error"))).1.calls = _
    rw [(Write_frame w2 _).2.1, hc]
    simp
  · intro hwrote htr
    have hc2 : w2.Code = w1.Code := by rw [hcode]; simp [hwrote]
    refine ⟨?_, ?_, ?_⟩
    · show (w2.Write (some (bytesOf "server error"))).1.Code = _
      rw [hwc.1, hc2]
    · show (w2.Write (some (bytesOf "server error"))).1.HeaderMap = _
      rw [(Write_frame w2 _).1, hh]
    · show (w2.Write (some (bytesOf "server error"))).1.Body = _
      by_cases hba : bodyAllowedForStatus w1.Code = true
      · rw [if_pos hba, (hwc.2.2.1 (by rw [he, htr]) (by rw [hc2]; exact hba)).1, hb]
        rfl
      · rw [if_neg hba, (hwc.2.2.2.2 (by rw [he, htr]) (by rw [hc2]; simpa using hba)
          serverError_ne_nil).1, hb]

theorem Simple_failure_always_writes_witness :
    (writeThenFail .fresh sampleRequest =
      ((writeThenFail .fresh sampleRequest).1, some (.new "test error"))) ∧
    (writeThenFail .fresh sampleRequest).1.wroteHeader = true ∧
    ((New []).Simple writeThenFail .fresh sampleRequest).log =
      [LogArg.error (.new "test error")] ∧
    ((New []).Simple writeThenFail .fresh sampleRequest).w.Code = 404 :=
  ⟨rfl, rfl,
   (Simple_failure_always_writes (New []) writeThenFail .fresh _ sampleRequest
      (.new "test error") rfl).2.1,
   ((Simple_failure_always_writes (New []) writeThenFail .fresh _ sampleRequest
      (.new "test error") rfl).2.2.2.2 rfl rfl).1⟩

/-- C10 fails as stated: a handler that writes status 404 and the body
"test simple" and then returns an error does not find its response left as it
was: `Simple` appends "server error" to the body. -/
theorem Simple_failure_counterexample :
    (writeThenFail .fresh sampleRequest).2 = some (.new "test error") ∧
    (writeThenFail .fresh sampleRequest).1.Body = bytesOf "test simple" ∧
    ((New []).Simple writeThenFail .fresh sampleRequest).w.Body =
      bytesOf "test simple" ++ bytesOf "server error" ∧
    ((New []).Simple writeThenFail .fresh sampleRequest).w.Body ≠
      (writeThenFail .fresh sampleRequest).1.Body := by
  refine ⟨rfl, rfl, rfl, ?_⟩
  decide

/-! ## WrapJSON: encoding -/

/-- C11: when the handler returns a result with `NotJSON` false whose payload
cannot be encoded, `WrapJSON` does not swallow the failure: the logger is
invoked exactly once, with the encoding error wrapped with the context
"json encode", and on a fresh response the only operations are
`WriteHeader(500)` and `Write("server error")`, so the status is 500, the body
is the fixed text "server error", and neither a success status nor any byte of
the payload nor a header is sent. -/
theorem WrapJSON_encode_failure (m : mif) (next : WrapJSONFunc) (r : Request) (jd : JSONData)
    (e : GoError)
    (hnext : next r = (.ok (some jd, none), []))
    (hnj : jd.NotJSON = false) (henc : m.marshal jd.Data = .error e) :
    (m.WrapJSON next .fresh r).log = [LogArg.error (.wrap "json encode" e)] ∧
    (m.WrapJSON next .fresh r).w.Code = 500 ∧
    (m.WrapJSON next .fresh r).w.Body = bytesOf "server error" ∧
    (m.WrapJSON next .fresh r).w.calls =
      [.WriteHeader 500, .Write (some (bytesOf "server error"))] ∧
    (m.WrapJSON next .fresh r).w.HeaderMap = ∅ ∧
    (m.WrapJSON next .fresh r).panicked = none := by
  have h := Wrap_failed_fresh m (mif.WrapJSON.fn m next) r none _ []
    (fn_encode_error m next r jd [] e hnext hnj henc)
  unfold mif.WrapJSON
  rw [h]
  exact ⟨rfl, rfl, rfl, rfl, rfl, rfl⟩

theorem WrapJSON_encode_failure_witness :
    (constWrapJSON (some chanJSON) none sampleRequest = (.ok (some chanJSON, none), [])) ∧
    ((New []).marshal chanJSON.Data = .error (.new "json: unsupported type: chan int")) ∧
    ((New []).WrapJSON (constWrapJSON (some chanJSON) none) .fresh sampleRequest).log =
      [LogArg.error (.wrap "json encode" (.new "json: unsupported type: chan int"))] ∧
    ((New []).WrapJSON (constWrapJSON (some chanJSON) none) .fresh sampleRequest).w.Code = 500 ∧
    ((New []).WrapJSON (constWrapJSON (some chanJSON) none) .fresh sampleRequest).w.Body =
      bytesOf "server error" :=
  ⟨rfl, rfl,
   (WrapJSON_encode_failure (New []) (constWrapJSON (some chanJSON) none) sampleRequest chanJSON
      (.new "json: unsupported type: chan int") rfl rfl rfl).1,
   (WrapJSON_encode_failure (New []) (constWrapJSON (some chanJSON) none) sampleRequest chanJSON
      (.new "json: unsupported type: chan int") rfl rfl rfl).2.1,
   (WrapJSON_encode_failure (New []) (constWrapJSON (some chanJSON) none) sampleRequest chanJSON
      (.new "json: unsupported type: chan int") rfl rfl rfl).2.2.1⟩

/-- C12: for a returned result with `NotJSON` false, the bytes `WrapJSON` hands
to `Write` (the last operation of a call that does not panic) are the output of
`json.Marshal` on the payload when the configured prefix and indent are both
empty, and the output of `json.MarshalIndent` with exactly the configured prefix
and indent when one of them is non-empty (whenever that encoder succeeds); when
the status is 0 or a code of three digits that allows a body, they are the body
of the fresh response. -/
theorem WrapJSON_encoding (m : mif) (next : WrapJSONFunc) (r : Request) (jd : JSONData)
    (hnext : next r = (.ok (some jd, none), []))
    (hnj : jd.NotJSON = false) :
    (m.json.Prefix = "" → m.json.Indent = "" →
      ∀ b, jsonMarshal jd.Data = .ok b →
        ((m.WrapJSON next .fresh r).panicked = none →
          (m.WrapJSON next .fresh r).w.calls.getLast? = some (.Write (some b))) ∧
        (servable jd.Status = true → (m.WrapJSON next .fresh r).w.Body = b)) ∧
    (m.json.Prefix ≠ "" ∨ m.json.Indent ≠ "" →
      ∀ b, jsonMarshalIndent jd.Data m.json.Prefix m.json.Indent = .ok b →
        ((m.WrapJSON next .fresh r).panicked = none →
          (m.WrapJSON next .fresh r).w.calls.getLast? = some (.Write (some b))) ∧
        (servable jd.Status = true → (m.WrapJSON next .fresh r).w.Body = b)) := by
  have key : ∀ b, m.marshal jd.Data = .ok b →
      ((m.WrapJSON next .fresh r).panicked = none →
        (m.WrapJSON next .fresh r).w.calls.getLast? = some (.Write (some b))) ∧
      (servable jd.Status = true → (m.WrapJSON next .fresh r).w.Body = b) := by
    intro b henc
    have hfn := fn_json m next r jd [] b hnext hnj henc
    constructor
    · intro hp
      unfold mif.WrapJSON at hp ⊢
      rw [Wrap_returned m (mif.WrapJSON.fn m next) r _ [] hfn .fresh] at hp ⊢
      rw [(commitAndWrite_panicked _ _ _ _).2.2 hp]
      simp
    · intro hs
      exact (Wrap_returned_fresh m (mif.WrapJSON.fn m next) r _ [] hfn hs).2.1
  constructor
  · intro hp hi b hb
    apply key
    simp [mif.marshal, hp, hi, hb]
  · intro hpi b hb
    apply key
    simp only [mif.marshal, hpi, if_true, hb]

theorem WrapJSON_encoding_witness :
    (constWrapJSON (some textJSON) none sampleRequest = (.ok (some textJSON, none), [])) ∧
    (prefixMif.json.Prefix = "<prefix>" ∧ prefixMif.json.Indent = "<indent>") ∧
    (prefixMif.WrapJSON (constWrapJSON (some textJSON) none) .fresh sampleRequest).w.Body =
      bytesOf "\x7b\n<prefix><indent>\"text\": \"test\"\n<prefix>\x7d" ∧
    ((New []).WrapJSON (constWrapJSON (some textJSON) none) .fresh sampleRequest).w.Body =
      bytesOf "\x7b\"text\":\"test\"\x7d" :=
  ⟨rfl, ⟨rfl, rfl⟩,
   ((WrapJSON_encoding prefixMif (constWrapJSON (some textJSON) none) sampleRequest textJSON
      rfl rfl).2 (Or.inl (by decide)) _ rfl).2 (by decide),
   ((WrapJSON_encoding (New []) (constWrapJSON (some textJSON) none) sampleRequest textJSON
      rfl rfl).1 rfl rfl _ rfl).2 (by decide)⟩

/-! ## Wrap: transport failure -/

/-- The status and the body after the steps of mif.go 94-99 on a broken
transport, when `WriteHeader` returns. -/
theorem commitAndWrite_broken (w : ResponseWriter) (status : Int) (raw : Option Bytes)
    (lg : List LogArg) (e : GoError) (he : w.writeErr = some e)
    (hv : w.wroteHeader = true ∨ (100 ≤ status ∧ status ≤ 999)) :
    (commitAndWrite w status raw lg).log = lg ++ [LogArg.error (.wrap "write response" e)] ∧
    (commitAndWrite w status raw lg).panicked = none ∧
    (commitAndWrite w status raw lg).w.calls = w.calls ++ [.WriteHeader status, .Write raw] ∧
    (commitAndWrite w status raw lg).w.Body = w.Body ∧
    (commitAndWrite w status raw lg).w.Code = (if w.wroteHeader = true then w.Code else status) := by
  obtain ⟨w2, h2, -, hb, hwe, hw, -, hc, hcode⟩ := WriteHeader_ok w status hv
  have hwc := Write_committed w2 raw hw
  have hbr := hwc.2.2.2.1 e (by rw [hwe, he])
  rw [commitAndWrite_ok w w2 status raw lg h2]
  refine ⟨?_, rfl, ?_, ?_, ?_⟩
  · simp [hbr.2]
  · show (w2.Write raw).1.calls = _
    rw [(Write_frame w2 raw).2.1, hc]
    simp
  · show (w2.Write raw).1.Body = _
    rw [hbr.1, hb]
  · show (w2.Write raw).1.Code = _
    rw [hwc.1, hcode]

/-- C13: when writing the body fails (the status has been accepted and the
transport returns an error from `Write`), `Wrap` invokes the logger with the
write error wrapped with the context "write response" (after the failure reason,
if the handler had failed), writes nothing further (the operations are the
header assignments, one `WriteHeader` and the one failed `Write`; the status is
the one committed, the body gains no byte), and returns normally. -/
theorem Wrap_write_failure (m : mif) (next : WrapFunc) (w : ResponseWriter) (r : Request)
    (data : Option RawData) (err : Option GoError) (e : GoError)
    (hnext : next r = (.ok (data, err), []))
    (hw : w.writeErr = some e)
    (hv : w.wroteHeader = true ∨
      (100 ≤ statusToWrite (resultToWrite data err) ∧
        statusToWrite (resultToWrite data err) ≤ 999)) :
    (m.Wrap next w r).log =
      failureLogs data err ++ [LogArg.error (.wrap "write response" e)] ∧
    (m.Wrap next w r).panicked = none ∧
    (m.Wrap next w r).w.calls =
      w.calls ++ headerCalls (resultToWrite data err).Header ++
        [.WriteHeader (statusToWrite (resultToWrite data err)),
         .Write (resultToWrite data err).Raw] ∧
    (m.Wrap next w r).w.Body = w.Body ∧
    (m.Wrap next w r).w.HeaderMap = (copyHeader (resultToWrite data err).Header w).HeaderMap ∧
    (w.wroteHeader = false →
      (m.Wrap next w r).w.Code = statusToWrite (resultToWrite data err)) := by
  have hf := copyHeader_frame (resultToWrite data err).Header w
  have hb := commitAndWrite_broken (copyHeader (resultToWrite data err).Header w)
    (statusToWrite (resultToWrite data err)) (resultToWrite data err).Raw
    ([] ++ failureLogs data err) e (by rw [hf.2.2.2]; exact hw) (by rw [hf.2.1]; exact hv)
  rw [Wrap_general m next r data err [] hnext w]
  refine ⟨?_, hb.2.1, ?_, ?_, commitAndWrite_HeaderMap _ _ _ _, ?_⟩
  · rw [hb.1]
    simp
  · rw [hb.2.2.1, copyHeader_calls]
  · rw [hb.2.2.2.1, hf.2.2.1]
  · intro hwh
    rw [hb.2.2.2.2, hf.2.1, hwh]
    simp

theorem Wrap_write_failure_witness :
    (constWrap (some testRaw) none sampleRequest = (.ok (some testRaw, none), [])) ∧
    (brokenWriter.writeErr = some (.new "broken pipe")) ∧
    ((New []).Wrap (constWrap (some testRaw) none) brokenWriter sampleRequest).log =
      [LogArg.error (.wrap "write response" (.new "broken pipe"))] ∧
    ((New []).Wrap (constWrap (some testRaw) none) brokenWriter sampleRequest).w.calls =
      [.WriteHeader 200, .Write (some (bytesOf "test raw"))] ∧
    ((New []).Wrap (constWrap (some testRaw) none) brokenWriter sampleRequest).w.Body = [] :=
  ⟨rfl, rfl,
   (Wrap_write_failure (New []) (constWrap (some testRaw) none) brokenWriter sampleRequest
      (some testRaw) none (.new "broken pipe") rfl rfl (Or.inr (by decide))).1,
   (Wrap_write_failure (New []) (constWrap (some testRaw) none) brokenWriter sampleRequest
      (some testRaw) none (.new "broken pipe") rfl rfl (Or.inr (by decide))).2.2.1,
   (Wrap_write_failure (New []) (constWrap (some testRaw) none) brokenWriter sampleRequest
      (some testRaw) none (.new "broken pipe") rfl rfl (Or.inr (by decide))).2.2.2.1⟩

/-! ## New -/

/-- Applying one more option after the others. -/
theorem New_append (opts : List MifOption) (o : MifOption) :
    New (opts ++ [o]) = o.apply (New opts) := by
  simp [New, List.foldl_append]

/-- C14: after `New(opts...)` every field has the value set by the last option
for that field, whatever options for other fields stand around it: the logger
is the one of the last logger option (`WithLogger`, the wrapper built by
`WithStdLogger`, or the no-op logger of `WithNoopLogger`), the JSON
configuration is the one of the last `WithJSONConfig`, and panics are disabled
exactly when `SetDisablePanic` occurs; a field no option sets has its default:
the no-op logger, empty prefix and indent, panics enabled. -/
theorem New_last_option_wins (opts : List MifOption) :
    (New opts).logger = ((opts.filterMap MifOption.loggerOf).getLast?).getD .noopLogger ∧
    (New opts).json =
      ((opts.filterMap MifOption.jsonOf).getLast?).getD { Prefix := "", Indent := "" } ∧
    ((New opts).disablePanic = true ↔ SetDisablePanic ∈ opts) ∧
    (∀ l, (WithLogger l).loggerOf = some l) ∧
    (∀ l, (WithStdLogger l).loggerOf = some (.stdLoggerWrapper l)) ∧
    (WithNoopLogger.loggerOf = some .noopLogger) ∧
    (∀ cfg, (WithJSONConfig cfg).jsonOf = some cfg) ∧
    New [] = { logger := .noopLogger, json := { Prefix := "", Indent := "" },
               disablePanic := false } := by
  refine ⟨?_, ?_, ?_, fun _ => rfl, fun _ => rfl, rfl, fun _ => rfl, rfl⟩
  · induction opts using List.reverseRecOn with
    | nil => rfl
    | append_singleton l a ih =>
      rw [New_append, List.filterMap_append]
      cases a <;> simp [MifOption.apply, MifOption.loggerOf, ih]
  · induction opts using List.reverseRecOn with
    | nil => rfl
    | append_singleton l a ih =>
      rw [New_append, List.filterMap_append]
      cases a <;> simp [MifOption.apply, MifOption.jsonOf, ih]
  · induction opts using List.reverseRecOn with
    | nil => simp [New]
    | append_singleton l a ih =>
      rw [New_append]
      cases a <;> simp [MifOption.apply, SetDisablePanic, ih]

/-! ## Order of the operations on the response -/

/-- The operations of the closure of `Wrap`, for any handler: when the call
does not panic they are header assignments, one `WriteHeader`, one `Write`. -/
theorem Wrap_calls (m : mif) (g : WrapFunc) (w : ResponseWriter) (r : Request)
    (hp : (m.Wrap g w r).panicked = none) :
    ∃ (hs : List (String × List String)) (code : Int) (b : Option Bytes),
      (m.Wrap g w r).w.calls =
        w.calls ++ hs.map (fun e => Call.SetHeader e.1 e.2) ++ [.WriteHeader code, .Write b] := by
  rcases hg : g r with ⟨res, lg⟩
  cases res with
  | panic msg =>
    rw [Wrap_of_panic m g w r msg lg hg] at hp
    exact absurd hp (by simp)
  | ok v =>
    obtain ⟨data, err⟩ := v
    refine ⟨match (resultToWrite data err).Header with
        | none => []
        | some h => h.entries.map fun e => (e.1, e.2),
      statusToWrite (resultToWrite data err), (resultToWrite data err).Raw, ?_⟩
    rw [Wrap_general m g r data err lg hg w] at hp ⊢
    rw [(commitAndWrite_panicked _ _ _ _).2.2 hp, copyHeader_calls]
    cases (resultToWrite data err).Header <;> simp [headerCalls, List.map_map, Function.comp_def]

/-- C15: in every invocation of a handler produced by `Wrap` or by `WrapJSON`
that does not panic, the operations performed on the response writer are, in
this order: header assignments, then exactly one `WriteHeader`, then exactly
one `Write`; so no header is assigned after the status line and no body byte
is written before it. -/
theorem Wrap_call_order (m : mif) (next : WrapFunc) (nextJSON : WrapJSONFunc)
    (w : ResponseWriter) (r : Request) :
    ((m.Wrap next w r).panicked = none →
      ∃ (hs : List (String × List String)) (code : Int) (b : Option Bytes),
        (m.Wrap next w r).w.calls =
          w.calls ++ hs.map (fun e => Call.SetHeader e.1 e.2) ++
            [.WriteHeader code, .Write b]) ∧
    ((m.WrapJSON nextJSON w r).panicked = none →
      ∃ (hs : List (String × List String)) (code : Int) (b : Option Bytes),
        (m.WrapJSON nextJSON w r).w.calls =
          w.calls ++ hs.map (fun e => Call.SetHeader e.1 e.2) ++
            [.WriteHeader code, .Write b]) :=
  ⟨Wrap_calls m next w r, Wrap_calls m (mif.WrapJSON.fn m nextJSON) w r⟩

theorem Wrap_call_order_witness :
    ((New []).Wrap (constWrap (some testRaw) none) .fresh sampleRequest).panicked = none ∧
    ((New []).WrapJSON (constWrapJSON (some textJSON) none) .fresh sampleRequest).panicked
      = none ∧
    (∃ (hs : List (String × List String)) (code : Int) (b : Option Bytes),
      ((New []).WrapJSON (constWrapJSON (some textJSON) none) .fresh sampleRequest).w.calls =
        ResponseWriter.fresh.calls ++ hs.map (fun e => Call.SetHeader e.1 e.2) ++
          [.WriteHeader code, .Write b]) ∧
    ((New []).WrapJSON (constWrapJSON (some textJSON) none) .fresh sampleRequest).w.calls =
      [.SetHeader "Content-Type" ["application/json"], .WriteHeader 200,
       .Write (some (bytesOf "\x7b\"text\":\"test\"\x7d"))] :=
  ⟨rfl, rfl,
   (Wrap_call_order (New []) (constWrap (some testRaw) none) (constWrapJSON (some textJSON) none)
      .fresh sampleRequest).2 rfl,
   rfl⟩

/-! ## Simple: success -/

/-- C16: when the handler returns no error, `Simple` does nothing more: the
response writer (status, headers, body, operations performed) is exactly as the
handler left it, and the logger is not invoked. -/
theorem Simple_success (m : mif) (next : SimpleFunc) (w w1 : ResponseWriter) (r : Request)
    (hnext : next w r = (w1, none)) :
    (m.Simple next w r).w = w1 ∧
    (m.Simple next w r).w.Code = w1.Code ∧
    (m.Simple next w r).w.HeaderMap = w1.HeaderMap ∧
    (m.Simple next w r).w.Body = w1.Body ∧
    (m.Simple next w r).w.calls = w1.calls ∧
    (m.Simple next w r).log = [] ∧
    (m.Simple next w r).panicked = none := by
  have h : m.Simple next w r = { w := w1, log := [], panicked := none } := by
    simp only [mif.Simple, hnext]
  rw [h]
  exact ⟨rfl, rfl, rfl, rfl, rfl, rfl, rfl⟩

theorem Simple_success_witness :
    (writeOk .fresh sampleRequest = ((writeOk .fresh sampleRequest).1, none)) ∧
    ((New []).Simple writeOk .fresh sampleRequest).w.Code = 404 ∧
    ((New []).Simple writeOk .fresh sampleRequest).w.Body = bytesOf "test simple" ∧
    ((New []).Simple writeOk .fresh sampleRequest).log = [] :=
  ⟨rfl,
   (Simple_success (New []) writeOk .fresh _ sampleRequest rfl).2.1,
   (Simple_success (New []) writeOk .fresh _ sampleRequest rfl).2.2.2.1,
   (Simple_success (New []) writeOk .fresh _ sampleRequest rfl).2.2.2.2.2.1⟩

/-! ## The handler's object, and repeated invocations -/

theorem Header_Get_Set (h : Header) (k v : String) : Header.Get (Header.Set h k v) k = v := by
  simp [Header.Get, Header.Set]

/-- The header map `fn` leaves in the handler's object on the JSON path always
answers the lookup of Content-Type with a non-empty value. -/
theorem jsonHeader_Get (h : Header) :
    Header.Get (if Header.Get h "Content-Type" = "" then
        Header.Set h "Content-Type" "application/json" else h) "Content-Type" ≠ "" := by
  by_cases hg : Header.Get h "Content-Type" = ""
  · rw [if_pos hg, Header_Get_Set]
    decide
  · rw [if_neg hg]
    exact hg

/-- The closure of `Wrap` depends on the handler only through what it returns
for the request. -/
theorem Wrap_congr (m : mif) (g1 g2 : WrapFunc) (w : ResponseWriter) (r : Request)
    (h : g2 r = g1 r) : m.Wrap g2 w r = m.Wrap g1 w r := by
  simp only [mif.Wrap, h]

/-- The handler's `RawData` after `Wrap`, for a handler that succeeded. -/
theorem Wrap_object_ok (next : WrapFunc) (r : Request) (d : RawData) (lg : List LogArg)
    (hnext : next r = (.ok (some d, none), lg)) :
    mif.Wrap.object next r = some { d with Status := statusToWrite d } := by
  simp only [mif.Wrap.object, hnext, statusToWrite]
  by_cases hs : d.Status = 0 <;> simp [hs]

/-- The handler's `JSONData` after `fn`, for a handler that succeeded. -/
theorem WrapJSON_object_ok (next : WrapJSONFunc) (r : Request) (jd : JSONData)
    (lg : List LogArg) (hnext : next r = (.ok (some jd, none), lg)) :
    mif.WrapJSON.object next r =
      some (if jd.NotJSON then jd
        else { jd with
          Header := some (if Header.Get (jd.Header.getD ∅) "Content-Type" = "" then
              Header.Set (jd.Header.getD ∅) "Content-Type" "application/json"
            else jd.Header.getD ∅) }) := by
  simp only [mif.WrapJSON.object, hnext]
  by_cases hnj : jd.NotJSON = true
  · simp [hnj]
  · cases hh : jd.Header <;> simp [hnj, hh]

/-- Serving the handler's `RawData` a second time, after `Wrap` has worked on
it, gives the same outcome as the first time. -/
theorem Wrap_again (m : mif) (next next2 : WrapFunc) (w : ResponseWriter) (r : Request)
    (d : RawData) (lg : List LogArg)
    (h1 : next r = (.ok (some d, none), lg))
    (h2 : next2 r = (.ok (mif.Wrap.object next r, none), lg)) :
    m.Wrap next2 w r = m.Wrap next w r := by
  rw [Wrap_object_ok next r d lg h1] at h2
  rw [Wrap_returned m next r d lg h1 w, Wrap_returned m next2 r _ lg h2 w]
  have hs : statusToWrite { d with Status := statusToWrite d } = statusToWrite d := by
    unfold statusToWrite
    by_cases h0 : d.Status = 0
    · simp [h0, StatusOK]
    · simp [h0]
  rw [hs]

/-- The closure `fn` returns the same for the handler's `JSONData` after `fn`
has worked on it as it did the first time. -/
theorem fn_again (m : mif) (next next2 : WrapJSONFunc) (r : Request) (jd : JSONData)
    (lg : List LogArg)
    (h1 : next r = (.ok (some jd, none), lg))
    (h2 : next2 r = (.ok (mif.WrapJSON.object next r, none), lg)) :
    mif.WrapJSON.fn m next2 r = mif.WrapJSON.fn m next r := by
  rw [WrapJSON_object_ok next r jd lg h1] at h2
  by_cases hnj : jd.NotJSON = true
  · rw [if_pos hnj] at h2
    simp only [mif.WrapJSON.fn, h1, h2]
  · have hnj2 : jd.NotJSON = false := by simpa using hnj
    rw [if_neg hnj] at h2
    cases henc : m.marshal jd.Data with
    | error e =>
      rw [fn_encode_error m next r jd lg e h1 hnj2 henc,
        fn_encode_error m next2 r _ lg e h2 hnj2 henc]
    | ok b =>
      rw [fn_json m next r jd lg b h1 hnj2 henc, fn_json m next2 r _ lg b h2 hnj2 henc]
      have hg := jsonHeader_Get (jd.Header.getD ∅)
      simp only [Option.getD_some, if_neg hg]

/-- C17: invoking the handler produced by `Wrap` or by `WrapJSON` a second time
for the same request, again on a fresh response, gives the same response as the
first time (same status, headers and body; in fact the same operations and log),
both when the successful handler returns an equal result again and when it
returns the very object of the first invocation, as the conversion left it. -/
theorem conversion_idempotent (m : mif) (next next2 : WrapFunc)
    (nextJSON nextJSON2 : WrapJSONFunc) (r : Request) (d : RawData) (jd : JSONData)
    (h1 : next r = (.ok (some d, none), []))
    (h2 : next2 r = (.ok (some d, none), []) ∨
          next2 r = (.ok (mif.Wrap.object next r, none), []))
    (hJ1 : nextJSON r = (.ok (some jd, none), []))
    (hJ2 : nextJSON2 r = (.ok (some jd, none), []) ∨
           nextJSON2 r = (.ok (mif.WrapJSON.object nextJSON r, none), [])) :
    (m.Wrap next2 .fresh r = m.Wrap next .fresh r ∧
     (m.Wrap next2 .fresh r).w.Code = (m.Wrap next .fresh r).w.Code ∧
     (m.Wrap next2 .fresh r).w.HeaderMap = (m.Wrap next .fresh r).w.HeaderMap ∧
     (m.Wrap next2 .fresh r).w.Body = (m.Wrap next .fresh r).w.Body) ∧
    (m.WrapJSON nextJSON2 .fresh r = m.WrapJSON nextJSON .fresh r ∧
     (m.WrapJSON nextJSON2 .fresh r).w.Code = (m.WrapJSON nextJSON .fresh r).w.Code ∧
     (m.WrapJSON nextJSON2 .fresh r).w.HeaderMap = (m.WrapJSON nextJSON .fresh r).w.HeaderMap ∧
     (m.WrapJSON nextJSON2 .fresh r).w.Body = (m.WrapJSON nextJSON .fresh r).w.Body) := by
  have hW : m.Wrap next2 .fresh r = m.Wrap next .fresh r := by
    rcases h2 with h2 | h2
    · exact Wrap_congr m next next2 .fresh r (h2.trans h1.symm)
    · exact Wrap_again m next next2 .fresh r d [] h1 h2
  have hJ : m.WrapJSON nextJSON2 .fresh r = m.WrapJSON nextJSON .fresh r := by
    unfold mif.WrapJSON
    apply Wrap_congr
    rcases hJ2 with hJ2 | hJ2
    · simp only [mif.WrapJSON.fn, hJ1, hJ2]
    · exact fn_again m nextJSON nextJSON2 r jd [] hJ1 hJ2
  exact ⟨⟨hW, by rw [hW], by rw [hW], by rw [hW]⟩, ⟨hJ, by rw [hJ], by rw [hJ], by rw [hJ]⟩⟩

theorem conversion_idempotent_witness :
    (constWrap (some testRaw) none sampleRequest = (.ok (some testRaw, none), [])) ∧
    (mif.Wrap.object (constWrap (some testRaw) none) sampleRequest =
      some { Header := none, Status := 200, Raw := some (bytesOf "test raw") }) ∧
    (mif.WrapJSON.object (constWrapJSON (some textJSON) none) sampleRequest =
      some { NotJSON := false,
             Header := some (AList.singleton "Content-Type" ["application/json"]),
             Status := 0, Data := .struct [("text", .str "test")] }) ∧
    ((New []).WrapJSON
        (constWrapJSON (mif.WrapJSON.object (constWrapJSON (some textJSON) none) sampleRequest)
          none) .fresh sampleRequest =
      (New []).WrapJSON (constWrapJSON (some textJSON) none) .fresh sampleRequest) ∧
    ((New []).Wrap
        (constWrap (mif.Wrap.object (constWrap (some testRaw) none) sampleRequest) none)
        .fresh sampleRequest).w.Code =
      ((New []).Wrap (constWrap (some testRaw) none) .fresh sampleRequest).w.Code :=
  ⟨rfl, rfl, rfl,
   (conversion_idempotent (New []) (constWrap (some testRaw) none)
      (constWrap (mif.Wrap.object (constWrap (some testRaw) none) sampleRequest) none)
      (constWrapJSON (some textJSON) none)
      (constWrapJSON (mif.WrapJSON.object (constWrapJSON (some textJSON) none) sampleRequest)
        none)
      sampleRequest testRaw textJSON rfl (Or.inr rfl) rfl (Or.inr rfl)).2.1,
   (conversion_idempotent (New []) (constWrap (some testRaw) none)
      (constWrap (mif.Wrap.object (constWrap (some testRaw) none) sampleRequest) none)
      (constWrapJSON (some textJSON) none)
      (constWrapJSON (mif.WrapJSON.object (constWrapJSON (some textJSON) none) sampleRequest)
        none)
      sampleRequest testRaw textJSON rfl (Or.inr rfl) rfl (Or.inr rfl)).1.2.1⟩

/-- C18: what the conversion does to the object the handler returned. `Wrap`
leaves the headers and the body of the handler's `RawData` as they were and
changes its status only from 0 to 200, which is the status it then commits
(when `WriteHeader` accepts it).
`WrapJSON` leaves the `NotJSON` flag, the status and the payload of the
handler's `JSONData` as they were; it leaves the headers as they were when
`NotJSON` is set, and otherwise the header map afterwards is the handler's map
(a new map when there was none) with Content-Type set to application/json when
the lookup of Content-Type yielded the empty string, unchanged when it did not;
that map is the one sent when the payload encodes. -/
theorem object_after_conversion (m : mif) (next : WrapFunc) (nextJSON : WrapJSONFunc)
    (r : Request) (d : RawData) (jd : JSONData)
    (h1 : next r = (.ok (some d, none), []))
    (hJ1 : nextJSON r = (.ok (some jd, none), [])) :
    (∃ d2, mif.Wrap.object next r = some d2 ∧
      d2.Header = d.Header ∧ d2.Raw = d.Raw ∧
      d2.Status = (if d.Status = 0 then 200 else d.Status) ∧
      (d.Status = 0 ∨ (100 ≤ d.Status ∧ d.Status ≤ 999) →
        (m.Wrap next .fresh r).w.Code = d2.Status)) ∧
    (∃ jd2, mif.WrapJSON.object nextJSON r = some jd2 ∧
      jd2.NotJSON = jd.NotJSON ∧ jd2.Status = jd.Status ∧ jd2.Data = jd.Data ∧
      (jd.NotJSON = true → jd2.Header = jd.Header) ∧
      (jd.NotJSON = false → jd.Header = none →
        Header.Get ∅ "Content-Type" = "" ∧
        jd2.Header = some (Header.Set ∅ "Content-Type" "application/json")) ∧
      (jd.NotJSON = false → ∀ h, jd.Header = some h →
        (Header.Get h "Content-Type" = "" →
          jd2.Header = some (Header.Set h "Content-Type" "application/json")) ∧
        (Header.Get h "Content-Type" ≠ "" → jd2.Header = some h)) ∧
      (jd.NotJSON = false → ∀ b, m.marshal jd.Data = .ok b → ∀ k : String,
        (m.WrapJSON nextJSON .fresh r).w.HeaderMap.lookup k = (jd2.Header.getD ∅).lookup k)) := by
  constructor
  · refine ⟨_, Wrap_object_ok next r d [] h1, rfl, rfl, ?_, ?_⟩
    · simp [statusToWrite, StatusOK]
    · intro hv
      rw [Wrap_returned m next r d [] h1 .fresh]
      have hf := copyHeader_frame d.Header .fresh
      obtain ⟨w2, h2, -, -, -, hw, -, -, hcode⟩ :=
        WriteHeader_ok (copyHeader d.Header .fresh) (statusToWrite d)
          (Or.inr (by
            unfold statusToWrite StatusOK
            rcases hv with h0 | hv
            · simp [h0]
            · by_cases h0 : d.Status = 0
              · simp [h0]
              · simpa [h0] using hv))
      rw [commitAndWrite_ok _ w2 _ _ _ h2]
      show (w2.Write d.Raw).1.Code = _
      rw [(Write_committed w2 d.Raw hw).1, hcode, hf.2.1]
      simp [ResponseWriter.fresh]
  · refine ⟨_, WrapJSON_object_ok nextJSON r jd [] hJ1, ?_, ?_, ?_, ?_, ?_, ?_, ?_⟩
    · by_cases hnj : jd.NotJSON = true <;> simp [hnj]
    · by_cases hnj : jd.NotJSON = true <;> simp [hnj]
    · by_cases hnj : jd.NotJSON = true <;> simp [hnj]
    · intro hnj
      simp [hnj]
    · intro hnj hh
      simp [hnj, hh, Header.Get]
    · intro hnj h hh
      constructor
      · intro hg
        simp [hnj, hh, hg]
      · intro hg
        simp [hnj, hh, hg]
    · intro hnj b henc k
      unfold mif.WrapJSON
      rw [Wrap_returned_lookup_fresh m (mif.WrapJSON.fn m nextJSON) r _ []
        (fn_json m nextJSON r jd [] b hJ1 hnj henc)]
      simp [hnj]

theorem object_after_conversion_witness :
    (constWrap (some testRaw) none sampleRequest = (.ok (some testRaw, none), [])) ∧
    (constWrapJSON (some textJSON) none sampleRequest = (.ok (some textJSON, none), [])) ∧
    (∃ d2, mif.Wrap.object (constWrap (some testRaw) none) sampleRequest = some d2 ∧
      d2.Header = testRaw.Header ∧ d2.Raw = testRaw.Raw ∧
      d2.Status = (if testRaw.Status = 0 then 200 else testRaw.Status) ∧
      (testRaw.Status = 0 ∨ (100 ≤ testRaw.Status ∧ testRaw.Status ≤ 999) →
        ((New []).Wrap (constWrap (some testRaw) none) .fresh sampleRequest).w.Code =
          d2.Status)) :=
  ⟨rfl, rfl,
   (object_after_conversion (New []) (constWrap (some testRaw) none)
      (constWrapJSON (some textJSON) none) sampleRequest testRaw textJSON rfl rfl).1⟩

end Mif
